import Mathlib

/-!
# Token-list market-data parser (`md_processor/src/parser/list_parser.h`)

A shallow embedding of `struct list_parser`: the record builders `get_event`,
`get_order`, `get_trade`, `get_snapshot_bid_order`, `get_snapshot_ask_order`,
`get_orders`, `get_snapshot_trade` and `get_trades`.

Conventions of the embedding.

* The message is a `List Tok`; the iterator `message_iter` is an index into it and
  `end` is `toks.length`.  `++message_iter` is `message_iter + 1`.
* Every builder takes the iterator and the statistics counters and gives back a
  `Result`: what it returned or threw, the iterator as the call left it (it is passed
  by reference, so it stays advanced when an exception is thrown), and the counters.
* Numeric fields are `Int`, which covers both a signed and an unsigned choice of
  `OrderIdKeyType`, `QuantityValueType` and `PriceLevelKey`.
* The synthetic ids of snapshot levels are computed in double precision, as the source
  does (`1e6+price`); `to_double` is the rounding of an integer to the nearest double.
-/

namespace ListParser

/-! ## Domain types (`md_types.h`) -/

/-- Message category. -/
inductive Event where
  | Unknown | Add | Modify | Cancel | Trade | Snapshot
  deriving DecidableEq, Repr

/-- Order-book side. -/
inductive Side where
  | Unknown | Bid | Ask
  deriving DecidableEq, Repr

/-- Resting order, or an aggregated snapshot price level: `Order{id, side, quantity, price}`. -/
structure Order where
  id : Int
  side : Side
  quantity : Int
  price : Int
  deriving DecidableEq, Repr

/-- Executed trade: `Trade{side, quantity, price}`. -/
structure Trade where
  side : Side
  quantity : Int
  price : Int
  deriving DecidableEq, Repr

/-- Modelled from the spec: the character an `Event` member is written as on the wire
(`md_types.h` is not in src).  `get_event` compares the event with the characters
`A`, `M`, `X`, `T`, `S`; `Unknown` is none of them. -/
def Event.code : Event → Char
  | .Unknown => Char.ofNat 0
  | .Add => 'A'
  | .Modify => 'M'
  | .Cancel => 'X'
  | .Trade => 'T'
  | .Snapshot => 'S'

/-- Modelled from the spec: `contains(event, c1, c2, ...)` of `md_helper.h` (not in src):
whether the event is one of the listed characters. -/
def contains (event : Event) (codes : List Char) : Bool :=
  codes.any (fun c => event.code == c)

/-- The configuration constants `max_order_id`, `max_order_quantity` and
`max_order_price` (declared outside src, taken as parameters). -/
structure Limits where
  max_order_id : Int
  max_order_quantity : Int
  max_order_price : Int
  deriving DecidableEq, Repr

/-! ## Statistics sink (`md_stats.h`) -/

/-- The eight counters of the statistics sink. -/
inductive Counter where
  | event_error | order_parse | order_range | side_error
  | quantity_parse | quantity_range | price_parse | price_range
  deriving DecidableEq, Repr

/-- Counter values of `stats()`. -/
structure Stats where
  event_error : Nat
  order_parse : Nat
  order_range : Nat
  side_error : Nat
  quantity_parse : Nat
  quantity_range : Nat
  price_parse : Nat
  price_range : Nat
  deriving DecidableEq, Repr

/-- Modelled from the spec: `stats().<counter>()` (`md_stats.h` is not in src) adds one to
the named counter and leaves the other seven alone. -/
def Stats.increment (s : Stats) : Counter → Stats
  | .event_error => { s with event_error := s.event_error + 1 }
  | .order_parse => { s with order_parse := s.order_parse + 1 }
  | .order_range => { s with order_range := s.order_range + 1 }
  | .side_error => { s with side_error := s.side_error + 1 }
  | .quantity_parse => { s with quantity_parse := s.quantity_parse + 1 }
  | .quantity_range => { s with quantity_range := s.quantity_range + 1 }
  | .price_parse => { s with price_parse := s.price_parse + 1 }
  | .price_range => { s with price_range := s.price_range + 1 }

/-- Value of one counter. -/
def Stats.get (s : Stats) : Counter → Nat
  | .event_error => s.event_error
  | .order_parse => s.order_parse
  | .order_range => s.order_range
  | .side_error => s.side_error
  | .quantity_parse => s.quantity_parse
  | .quantity_range => s.quantity_range
  | .price_parse => s.price_parse
  | .price_range => s.price_range

/-- All counters at zero. -/
def Stats.zero : Stats := ⟨0, 0, 0, 0, 0, 0, 0, 0⟩

/-! ## Typed field decoder (`md_token_types.h`) -/

/-- Modelled from the spec: the per-type token conversions behind `make_type`
(`md_token_types.h` is not in src).  Each converts one token to a value of the
destination type or fails; the side codes and the numeric formats are those of the
implementation, so they are parameters. -/
structure TokenTypes (Tok : Type) where
  event : Tok → Option Event
  side : Tok → Option Side
  order_id : Tok → Option Int
  quantity : Tok → Option Int
  price : Tok → Option Int
  num : Tok → Option Int

/-- Modelled from the spec: `make_type(message_iter, end, t)` (`md_token_types.h` is not
in src).  It converts the token under the cursor, never moves the cursor, and fails
when the cursor is at or past `end`.  `some v` stands for `true` with `t = v`, and
`none` for `false` with `t` left as it was. -/
def make_type {Tok α : Type} (conv : Tok → Option α) (toks : List Tok) (message_iter : Nat) :
    Option α :=
  match toks[message_iter]? with
  | none => none
  | some tok => conv tok

/-- Single-field `parse_type(message_iter, end, t)`: `return make_type(message_iter,end,t);`. -/
def parse_type {Tok α : Type} (conv : Tok → Option α) (toks : List Tok) (message_iter : Nat) :
    Option α :=
  make_type conv toks message_iter

/-! ## Results -/

/-- How a builder call ended: with a value, or with `std::runtime_error(what)`. -/
inductive Outcome (α : Type) where
  | returned (value : α)
  | thrown (what : String)
  deriving DecidableEq, Repr

/-- Everything observable after a builder call. -/
structure Result (α : Type) where
  outcome : Outcome α
  message_iter : Nat
  stats : Stats
  deriving DecidableEq, Repr

/-! ## Record builders -/

/-- Embedding of `list_parser::get_event`. -/
def get_event {Tok : Type} (D : TokenTypes Tok) (toks : List Tok) (message_iter : Nat)
    (stats : Stats) : Result Event :=
  let event : Event :=
    match parse_type D.event toks message_iter with
    | some e => e
    | none => Event.Unknown
  if !contains event ['A', 'M', 'X', 'T', 'S'] then
    ⟨.thrown "Corruption", message_iter, stats.increment .event_error⟩
  else
    ⟨.returned event, message_iter, stats⟩

/-- Embedding of `list_parser::get_order`. -/
def get_order {Tok : Type} (D : TokenTypes Tok) (L : Limits) (toks : List Tok)
    (message_iter : Nat) (stats : Stats) : Result Order :=
  match parse_type D.order_id toks (message_iter + 1) with
  | none => ⟨.thrown "Order id syntax", message_iter + 1, stats.increment .order_parse⟩
  | some orderid =>
    if ¬(orderid > 0 ∧ orderid ≤ L.max_order_id) then
      ⟨.thrown "Order id range", message_iter + 1, stats.increment .order_range⟩
    else
      match parse_type D.side toks (message_iter + 2) with
      | none => ⟨.thrown "Order side syntax", message_iter + 2, stats.increment .side_error⟩
      | some side =>
        match parse_type D.quantity toks (message_iter + 3) with
        | none =>
          ⟨.thrown "Order quantity syntax", message_iter + 3, stats.increment .quantity_parse⟩
        | some quantity =>
          if ¬(quantity > 0 ∧ quantity ≤ L.max_order_quantity) then
            ⟨.thrown "Order quantity range", message_iter + 3,
              stats.increment .quantity_range⟩
          else
            match parse_type D.price toks (message_iter + 4) with
            | none =>
              ⟨.thrown "Order price syntax", message_iter + 4, stats.increment .price_parse⟩
            | some price =>
              if ¬(price > 0 ∧ price ≤ L.max_order_price) then
                ⟨.thrown "Order price range", message_iter + 4,
                  stats.increment .price_range⟩
              else
                ⟨.returned ⟨orderid, side, quantity, price⟩, message_iter + 4, stats⟩

/-- Embedding of `list_parser::get_trade`.  The two range errors are thrown with the
literal plus the rejected value (`"Trade quantity range"+quantity`), which at value `0`
is the literal itself; the embedding records the literal. -/
def get_trade {Tok : Type} (D : TokenTypes Tok) (toks : List Tok) (message_iter : Nat)
    (stats : Stats) : Result Trade :=
  match parse_type D.side toks (message_iter + 1) with
  | none => ⟨.thrown "Order side syntax", message_iter + 1, stats.increment .side_error⟩
  | some side =>
    match parse_type D.quantity toks (message_iter + 2) with
    | none =>
      ⟨.thrown "Trade quantity syntax", message_iter + 2, stats.increment .quantity_parse⟩
    | some quantity =>
      if quantity ≤ 0 then
        ⟨.thrown "Trade quantity range", message_iter + 2, stats.increment .quantity_range⟩
      else
        match parse_type D.price toks (message_iter + 3) with
        | none =>
          ⟨.thrown "Trade price is syntax", message_iter + 3, stats.increment .price_parse⟩
        | some price =>
          if price ≤ 0 then
            ⟨.thrown "Trade price range", message_iter + 3, stats.increment .price_parse⟩
          else
            ⟨.returned ⟨side, quantity, price⟩, message_iter + 3, stats⟩

/-- How many low bits of `a` a 53-bit significand cannot hold: the least `e` with
`a / 2^e < 2^53`, found by halving (`fuel` bounds the number of halvings; `a` itself is
always enough). -/
def excess_bits : Nat → Nat → Nat
  | 0, _ => 0
  | fuel + 1, a => if a < 2 ^ 53 then 0 else excess_bits fuel (a / 2) + 1

/-- The IEEE-754 double nearest to an integer, ties to even: what converting an integer to
`double` gives, and what adding two integral doubles gives from their exact sum.  The
significand has 53 bits, so every integer of magnitude up to `2^53` is its own double and
a larger one is rounded to a multiple of `2^e`, `e` being the number of bits in excess.
The overflow threshold of `double` (`2^1024`) is far beyond the values of the integer
types and is not modelled. -/
def to_double (n : Int) : Int :=
  let a := n.natAbs
  if a < 2 ^ 53 then n
  else
    let e := excess_bits a a
    let q := a / 2 ^ e
    let r := a % 2 ^ e
    let half := 2 ^ (e - 1)
    let m := if r < half ∨ (r = half ∧ q % 2 = 0) then q else q + 1
    if n < 0 then -((m * 2 ^ e : Nat) : Int) else ((m * 2 ^ e : Nat) : Int)

/-- The synthetic id of a snapshot level, `orderid=(1e6+price);` and `orderid=(2e6+price);`
with `base` the literal: the price is converted to `double`, the sum is taken in `double`,
and the result is converted back to `OrderIdKeyType`.  The conversion back is exact as
long as the double lies in the range of the id type and is undefined in C++ past it; the
embedding keeps the value of the double, and the statements about ids below are limited
to sums of at most `2^53`, which fit every 64-bit id type. -/
def synthetic_order_id (base price : Int) : Int :=
  to_double (base + to_double price)

/-- Embedding of `list_parser::get_snapshot_bid_order`; the id is `orderid=(1e6+price)`,
computed in double precision as `synthetic_order_id` describes. -/
def get_snapshot_bid_order {Tok : Type} (D : TokenTypes Tok) (L : Limits) (toks : List Tok)
    (message_iter : Nat) (stats : Stats) : Result Order :=
  match parse_type D.num toks (message_iter + 1) with
  | none => ⟨.thrown "Order number of contributors syntax", message_iter + 1, stats⟩
  | some _ =>
    match parse_type D.quantity toks (message_iter + 2) with
    | none =>
      ⟨.thrown "Order quantity syntax", message_iter + 2, stats.increment .quantity_parse⟩
    | some quantity =>
      if ¬(quantity > 0 ∧ quantity ≤ L.max_order_quantity) then
        ⟨.thrown "Order quantity range", message_iter + 2, stats.increment .quantity_range⟩
      else
        match parse_type D.price toks (message_iter + 3) with
        | none =>
          ⟨.thrown "Order price syntax", message_iter + 3, stats.increment .price_parse⟩
        | some price =>
          if ¬(price > 0 ∧ price ≤ L.max_order_price) then
            ⟨.thrown "Order price range", message_iter + 3, stats.increment .price_range⟩
          else
            ⟨.returned ⟨synthetic_order_id 1000000 price, Side.Bid, quantity, price⟩,
              message_iter + 3, stats⟩

/-- Embedding of `list_parser::get_snapshot_ask_order`; `orderid=(2e6+price)` as for the
bid level. -/
def get_snapshot_ask_order {Tok : Type} (D : TokenTypes Tok) (L : Limits) (toks : List Tok)
    (message_iter : Nat) (stats : Stats) : Result Order :=
  match parse_type D.price toks (message_iter + 1) with
  | none => ⟨.thrown "Order price syntax", message_iter + 1, stats.increment .price_parse⟩
  | some price =>
    if ¬(price > 0 ∧ price ≤ L.max_order_price) then
      ⟨.thrown "Order price range", message_iter + 1, stats.increment .price_range⟩
    else
      match parse_type D.quantity toks (message_iter + 2) with
      | none =>
        ⟨.thrown "Order quantity syntax", message_iter + 2, stats.increment .quantity_parse⟩
      | some quantity =>
        if ¬(quantity > 0 ∧ quantity ≤ L.max_order_quantity) then
          ⟨.thrown "Order quantity range", message_iter + 2, stats.increment .quantity_range⟩
        else
          match parse_type D.num toks (message_iter + 3) with
          | none => ⟨.thrown "Order number of contributors syntax", message_iter + 3, stats⟩
          | some _ =>
            ⟨.returned ⟨synthetic_order_id 2000000 price, Side.Ask, quantity, price⟩,
              message_iter + 3, stats⟩

/-- The `while` loop of `list_parser::get_orders`, one iteration per unit of fuel;
`none` means the fuel ran out before the loop finished. -/
def get_orders_loop {Tok : Type} (D : TokenTypes Tok) (L : Limits) (toks : List Tok) :
    Nat → Nat → Stats → List Order → Option (Result (List Order))
  | 0, _, _, _ => none
  | fuel + 1, message_iter, stats, orders =>
    if message_iter + 1 ≠ toks.length then
      match get_snapshot_bid_order D L toks message_iter stats with
      | ⟨.thrown what, it, st⟩ => some ⟨.thrown what, it, st⟩
      | ⟨.returned bid, it, st⟩ =>
        match get_snapshot_ask_order D L toks it st with
        | ⟨.thrown what, it2, st2⟩ => some ⟨.thrown what, it2, st2⟩
        | ⟨.returned ask, it2, st2⟩ =>
          get_orders_loop D L toks fuel it2 st2 (orders ++ [bid, ask])
    else
      some ⟨.returned orders, message_iter, stats⟩

/-- Embedding of `list_parser::get_orders`.  A pass of the loop that does not throw
moves the cursor six tokens forward inside the message, so `toks.length + 1` passes
are more than the loop can make. -/
def get_orders {Tok : Type} (D : TokenTypes Tok) (L : Limits) (toks : List Tok)
    (message_iter : Nat) (stats : Stats) : Option (Result (List Order)) :=
  get_orders_loop D L toks (toks.length + 1) message_iter stats []

/-- Embedding of `list_parser::get_snapshot_trade`; range errors as in `get_trade`. -/
def get_snapshot_trade {Tok : Type} (D : TokenTypes Tok) (toks : List Tok)
    (message_iter : Nat) (stats : Stats) : Result Trade :=
  match parse_type D.side toks (message_iter + 1) with
  | some side =>
    match parse_type D.quantity toks (message_iter + 2) with
    | none =>
      ⟨.thrown "Trade quantity syntax", message_iter + 2, stats.increment .quantity_parse⟩
    | some quantity =>
      if quantity ≤ 0 then
        ⟨.thrown "Trade quantity range", message_iter + 2, stats.increment .quantity_range⟩
      else
        match parse_type D.price toks (message_iter + 3) with
        | none =>
          ⟨.thrown "Trade price is syntax", message_iter + 3, stats.increment .price_parse⟩
        | some price =>
          if price ≤ 0 then
            ⟨.thrown "Trade price range", message_iter + 3, stats.increment .price_parse⟩
          else
            ⟨.returned ⟨side, quantity, price⟩, message_iter + 3, stats⟩
  | none => ⟨.returned ⟨Side.Unknown, 0, 0⟩, message_iter + 1 + 2, stats⟩

/-- Embedding of `list_parser::get_trades`. -/
def get_trades {Tok : Type} (D : TokenTypes Tok) (toks : List Tok) (message_iter : Nat)
    (stats : Stats) : Result (List Trade) :=
  match get_snapshot_trade D toks message_iter stats with
  | ⟨.thrown what, it, st⟩ => ⟨.thrown what, it, st⟩
  | ⟨.returned trade, it, st⟩ =>
    if trade.side ≠ Side.Unknown then
      ⟨.returned [trade], it, st⟩
    else
      ⟨.returned [], it, st⟩

/-! ## A concrete wire format, for evaluating the builders on messages -/

/-- Value of a decimal digit. -/
def digit_value (c : Char) : Option Nat :=
  if '0' ≤ c ∧ c ≤ '9' then some (c.toNat - 48) else none

/-- Decimal value of a run of digits, most significant first. -/
def digits_value : List Char → Nat → Option Nat
  | [], acc => some acc
  | c :: cs, acc =>
    match digit_value c with
    | none => none
    | some d => digits_value cs (10 * acc + d)

/-- Modelled from the spec: numeric decode of a token, failing on non-numeric content
and on overflow of the 64-bit unsigned destination. -/
def csv_number (tok : String) : Option Int :=
  match tok.toList with
  | [] => none
  | cs =>
    match digits_value cs 0 with
    | none => none
    | some n => if n < 2 ^ 64 then some (n : Int) else none

/-- Modelled from the spec: enumeration decode of an `Event` token, the one-character
codes `A`, `M`, `X`, `T`, `S`; any other content fails. -/
def csv_event (tok : String) : Option Event :=
  if tok = "A" then some Event.Add
  else if tok = "M" then some Event.Modify
  else if tok = "X" then some Event.Cancel
  else if tok = "T" then some Event.Trade
  else if tok = "S" then some Event.Snapshot
  else none

/-- Modelled from the spec: enumeration decode of a `Side` token.  The codes are the
implementation's; `B` (as in the header comment `A,1000001,B,5,900`) and `S` are used. -/
def csv_side (tok : String) : Option Side :=
  if tok = "B" then some Side.Bid
  else if tok = "S" then some Side.Ask
  else none

/-- Token conversions of the sample comma-separated format. -/
def csv : TokenTypes String :=
  ⟨csv_event, csv_side, csv_number, csv_number, csv_number, csv_number⟩

/-- Sample limits. -/
def sample_limits : Limits := ⟨4000000000, 1000000, 1000000⟩

/-! ## Snapshot messages, for stating the ladder properties -/

/-- One transmitted depth level of a snapshot: the six tokens of a bid/ask pair in wire
order, and the quantity and price values they stand for. -/
structure Level (Tok : Type) where
  bid_contrib_tok : Tok
  bid_qty_tok : Tok
  bid_price_tok : Tok
  ask_price_tok : Tok
  ask_qty_tok : Tok
  ask_contrib_tok : Tok
  bid_qty : Int
  bid_price : Int
  ask_price : Int
  ask_qty : Int

/-- The six tokens of a level as transmitted: `contrib, qty, price, price, qty, contrib`. -/
def Level.tokens {Tok : Type} (l : Level Tok) : List Tok :=
  [l.bid_contrib_tok, l.bid_qty_tok, l.bid_price_tok, l.ask_price_tok, l.ask_qty_tok,
    l.ask_contrib_tok]

/-- The bid entry and the ask entry the level builders make of a valid level. -/
def Level.orders {Tok : Type} (l : Level Tok) : List Order :=
  [⟨synthetic_order_id 1000000 l.bid_price, Side.Bid, l.bid_qty, l.bid_price⟩,
    ⟨synthetic_order_id 2000000 l.ask_price, Side.Ask, l.ask_qty, l.ask_price⟩]

/-- A level is valid when both contributor counts convert, and the quantities and prices
convert to the level's values, which lie in `(0, max]`. -/
@[reducible] def Level.valid {Tok : Type} (D : TokenTypes Tok) (L : Limits) (l : Level Tok) :
    Prop :=
  (D.num l.bid_contrib_tok).isSome = true ∧
  D.quantity l.bid_qty_tok = some l.bid_qty ∧
  (0 < l.bid_qty ∧ l.bid_qty ≤ L.max_order_quantity) ∧
  D.price l.bid_price_tok = some l.bid_price ∧
  (0 < l.bid_price ∧ l.bid_price ≤ L.max_order_price) ∧
  D.price l.ask_price_tok = some l.ask_price ∧
  (0 < l.ask_price ∧ l.ask_price ≤ L.max_order_price) ∧
  D.quantity l.ask_qty_tok = some l.ask_qty ∧
  (0 < l.ask_qty ∧ l.ask_qty ≤ L.max_order_quantity) ∧
  (D.num l.ask_contrib_tok).isSome = true

/-- Tokens of a ladder of levels, in transmitted order. -/
def ladder_tokens {Tok : Type} : List (Level Tok) → List Tok
  | [] => []
  | l :: ls => l.tokens ++ ladder_tokens ls

/-- Orders of a ladder of levels: bid 1, ask 1, bid 2, ask 2, and so on. -/
def ladder_orders {Tok : Type} : List (Level Tok) → List Order
  | [] => []
  | l :: ls => l.orders ++ ladder_orders ls

/-- `ladder` is the ladder of `levels`: two entries per level, in the order of the levels,
the bid entry before the ask entry, each with the level's quantity and price; the bid id
is `price + 1000000` and the ask id `price + 2000000` wherever that sum is at most `2^53`
(beyond it the sum is rounded in double precision). -/
def ladder_of_levels {Tok : Type} (levels : List (Level Tok)) (ladder : List Order) : Prop :=
  ladder.length = 2 * levels.length ∧
  ∀ k l, levels[k]? = some l →
    ∃ bid ask, ladder[2 * k]? = some bid ∧ ladder[2 * k + 1]? = some ask ∧
      (bid.side = Side.Bid ∧ bid.quantity = l.bid_qty ∧ bid.price = l.bid_price ∧
        (l.bid_price ≤ 2 ^ 53 - 1000000 → bid.id = l.bid_price + 1000000)) ∧
      (ask.side = Side.Ask ∧ ask.quantity = l.ask_qty ∧ ask.price = l.ask_price ∧
        (l.ask_price ≤ 2 ^ 53 - 2000000 → ask.id = l.ask_price + 2000000))

/-- A ladder as read from a message: `orders` is made of whole bid/ask pairs, the pair
number `k` being the one whose quantity and price tokens sit at `message_iter + 6k + 2`,
`+ 3` (bid) and `+ 4`, `+ 5` (ask); the prices are above zero and the ids are the ones
`synthetic_order_id` gives. -/
def ladder_read {Tok : Type} (D : TokenTypes Tok) (toks : List Tok) :
    Nat → List Order → Prop
  | _, [] => True
  | _, [_] => False
  | message_iter, bid :: ask :: rest =>
    (bid.side = Side.Bid ∧ (0 < bid.price ∧ bid.id = synthetic_order_id 1000000 bid.price) ∧
      parse_type D.quantity toks (message_iter + 2) = some bid.quantity ∧
      parse_type D.price toks (message_iter + 3) = some bid.price) ∧
    (ask.side = Side.Ask ∧ (0 < ask.price ∧ ask.id = synthetic_order_id 2000000 ask.price) ∧
      parse_type D.price toks (message_iter + 4) = some ask.price ∧
      parse_type D.quantity toks (message_iter + 5) = some ask.quantity) ∧
    ladder_read D toks (message_iter + 6) rest

/-! ## The variadic field decoder -/

/-- What a call of the variadic `parse_type` leaves behind: its `bool`, the iterator, and
the values it stored in its destinations, in field order (a destination that was not
decoded gets no value). -/
structure FieldsResult (V : Type) where
  ok : Bool
  message_iter : Nat
  values : List V
  deriving DecidableEq, Repr

/-- Embedding of the variadic `parse_type(message_iter, end, t, rest...)`:
`return parse_type(message_iter,end,t) && parse_type(++message_iter,end,rest...);`, ending
in the single-field `parse_type` when `rest` is exhausted.  The destinations of one call
may have different types; `V` is their union. -/
def parse_type_fields {Tok V : Type} (toks : List Tok) :
    (Tok → Option V) → List (Tok → Option V) → Nat → FieldsResult V
  | t, [], message_iter =>
    match parse_type t toks message_iter with
    | none => ⟨false, message_iter, []⟩
    | some v => ⟨true, message_iter, [v]⟩
  | t, r :: rest, message_iter =>
    match parse_type t toks message_iter with
    | none => ⟨false, message_iter, []⟩
    | some v =>
      let tail := parse_type_fields toks r rest (message_iter + 1)
      ⟨tail.ok, tail.message_iter, v :: tail.values⟩

/-! ## Supporting lemmas -/

/-- With `a` halvings allowed, what is left of `a` fits the 53-bit significand. -/
theorem excess_bits_fits : ∀ (fuel a : Nat), a < 2 ^ (53 + fuel) →
    a / 2 ^ excess_bits fuel a < 2 ^ 53 := by
  intro fuel
  induction fuel with
  | zero => intro a h; simpa [excess_bits] using h
  | succ f ih =>
    intro a h
    by_cases hlt : a < 2 ^ 53
    · rw [excess_bits, if_pos hlt, Nat.pow_zero, Nat.div_one]
      exact hlt
    · rw [excess_bits, if_neg hlt]
      have hhalf : a / 2 < 2 ^ (53 + f) := by
        have e : 2 ^ (53 + (f + 1)) = 2 ^ (53 + f) * 2 := by
          rw [← Nat.add_assoc, Nat.pow_succ]
        rw [e] at h
        exact Nat.div_lt_of_lt_mul (by omega)
      have := ih (a / 2) hhalf
      rw [Nat.pow_succ, Nat.mul_comm, ← Nat.div_div_eq_div_mul]
      exact this

/-- An integer of magnitude at most `2^53` is its own double. -/
theorem to_double_exact (n : Int) (h0 : 0 ≤ n) (h : n ≤ 2 ^ 53) : to_double n = n := by
  by_cases hlt : n.natAbs < 2 ^ 53
  · unfold to_double
    exact if_pos hlt
  · have hn : n = 9007199254740992 := by omega
    subst hn
    decide

/-- The synthetic id is the exact sum as long as the sum is at most `2^53`. -/
theorem synthetic_order_id_exact (base price : Int) (hb : 0 ≤ base) (hp : 0 ≤ price)
    (h : base + price ≤ 2 ^ 53) : synthetic_order_id base price = base + price := by
  unfold synthetic_order_id
  rw [to_double_exact price hp (by omega), to_double_exact (base + price) (by omega) h]

theorem parse_type_of_getElem? {Tok α : Type} (conv : Tok → Option α) (toks : List Tok)
    (i : Nat) (tok : Tok) (h : toks[i]? = some tok) : parse_type conv toks i = conv tok := by
  simp [parse_type, make_type, h]

theorem parse_type_eq_some {Tok α : Type} (conv : Tok → Option α) (toks : List Tok)
    (i : Nat) (v : α) :
    parse_type conv toks i = some v ↔ ∃ tok, toks[i]? = some tok ∧ conv tok = some v := by
  unfold parse_type make_type
  cases h : toks[i]? with
  | none => simp
  | some tok => simp

theorem parse_type_past_end {Tok α : Type} (conv : Tok → Option α) (toks : List Tok)
    (i : Nat) (h : toks.length ≤ i) : parse_type conv toks i = none := by
  simp [parse_type, make_type, List.getElem?_eq_none h]

/-- Incrementing a counter adds one to it and leaves the other seven as they were. -/
theorem Stats.get_increment (s : Stats) (c d : Counter) :
    (s.increment c).get d = if d = c then s.get d + 1 else s.get d := by
  cases c <;> cases d <;> simp [Stats.increment, Stats.get]

/-- Incrementing never gives back the same counters. -/
theorem Stats.increment_ne (s : Stats) (c : Counter) : s.increment c ≠ s := by
  intro h
  have := congrArg (fun t => Stats.get t c) h
  simp [Stats.get_increment] at this

/-! ## The order builder -/

/-- C1: when the four tokens after the cursor convert to an id in `(0, max_order_id]`, a
side Bid or Ask, a quantity in `(0, max_order_quantity]` and a price in
`(0, max_order_price]`, `get_order` returns exactly `Order{id, side, qty, price}`, leaves the
cursor four tokens further (on the price token) and touches no counter. -/
theorem get_order_valid {Tok : Type} (D : TokenTypes Tok) (L : Limits) (toks : List Tok)
    (message_iter : Nat) (stats : Stats) (tid tside tqty tprice : Tok)
    (id qty price : Int) (side : Side)
    (h1 : toks[message_iter + 1]? = some tid) (h2 : toks[message_iter + 2]? = some tside)
    (h3 : toks[message_iter + 3]? = some tqty) (h4 : toks[message_iter + 4]? = some tprice)
    (hid : D.order_id tid = some id) (hid_lo : 0 < id) (hid_hi : id ≤ L.max_order_id)
    (hside : D.side tside = some side) (_hvalid : side = Side.Bid ∨ side = Side.Ask)
    (hqty : D.quantity tqty = some qty) (hqty_lo : 0 < qty)
    (hqty_hi : qty ≤ L.max_order_quantity)
    (hprice : D.price tprice = some price) (hprice_lo : 0 < price)
    (hprice_hi : price ≤ L.max_order_price) :
    get_order D L toks message_iter stats
      = ⟨.returned ⟨id, side, qty, price⟩, message_iter + 4, stats⟩ := by
  simp [get_order, parse_type_of_getElem? _ _ _ _ h1, parse_type_of_getElem? _ _ _ _ h2,
    parse_type_of_getElem? _ _ _ _ h3, parse_type_of_getElem? _ _ _ _ h4, hid, hside, hqty,
    hprice, hid_lo, hid_hi, hqty_lo, hqty_hi, hprice_lo, hprice_hi]

theorem get_order_valid_witness :
    get_order csv sample_limits ["A", "1000001", "B", "5", "900"] 0 Stats.zero
      = ⟨.returned ⟨1000001, Side.Bid, 5, 900⟩, 0 + 4, Stats.zero⟩ :=
  get_order_valid csv sample_limits ["A", "1000001", "B", "5", "900"] 0 Stats.zero
    "1000001" "B" "5" "900" 1000001 5 900 Side.Bid rfl rfl rfl rfl (by decide) (by decide)
    (by decide) (by decide) (by decide) (by decide) (by decide) (by decide) (by decide)
    (by decide) (by decide)

/-- C2: when `get_order` returns no Order, it threw for the first invalid field in the
order OrderId, Side, Quantity, Price: a token that does not convert gives the field's
syntax error and adds one to the field's parse counter (`order_parse`, `side_error`,
`quantity_parse`, `price_parse`); a value outside `(0, max]` gives the field's range
error and adds one to the field's range counter (`order_range`, `quantity_range`,
`price_range`); nothing else changes. -/
theorem get_order_failure_classified {Tok : Type} (D : TokenTypes Tok) (L : Limits)
    (toks : List Tok) (message_iter : Nat) (stats : Stats)
    (hfail : ∀ o, (get_order D L toks message_iter stats).outcome ≠ .returned o) :
    (parse_type D.order_id toks (message_iter + 1) = none ∧
      get_order D L toks message_iter stats
        = ⟨.thrown "Order id syntax", message_iter + 1, stats.increment .order_parse⟩) ∨
    (∃ id, parse_type D.order_id toks (message_iter + 1) = some id ∧
      ¬(0 < id ∧ id ≤ L.max_order_id) ∧
      get_order D L toks message_iter stats
        = ⟨.thrown "Order id range", message_iter + 1, stats.increment .order_range⟩) ∨
    (∃ id, parse_type D.order_id toks (message_iter + 1) = some id ∧
      (0 < id ∧ id ≤ L.max_order_id) ∧
      parse_type D.side toks (message_iter + 2) = none ∧
      get_order D L toks message_iter stats
        = ⟨.thrown "Order side syntax", message_iter + 2, stats.increment .side_error⟩) ∨
    (∃ id side, parse_type D.order_id toks (message_iter + 1) = some id ∧
      (0 < id ∧ id ≤ L.max_order_id) ∧
      parse_type D.side toks (message_iter + 2) = some side ∧
      parse_type D.quantity toks (message_iter + 3) = none ∧
      get_order D L toks message_iter stats
        = ⟨.thrown "Order quantity syntax", message_iter + 3,
            stats.increment .quantity_parse⟩) ∨
    (∃ id side qty, parse_type D.order_id toks (message_iter + 1) = some id ∧
      (0 < id ∧ id ≤ L.max_order_id) ∧
      parse_type D.side toks (message_iter + 2) = some side ∧
      parse_type D.quantity toks (message_iter + 3) = some qty ∧
      ¬(0 < qty ∧ qty ≤ L.max_order_quantity) ∧
      get_order D L toks message_iter stats
        = ⟨.thrown "Order quantity range", message_iter + 3,
            stats.increment .quantity_range⟩) ∨
    (∃ id side qty, parse_type D.order_id toks (message_iter + 1) = some id ∧
      (0 < id ∧ id ≤ L.max_order_id) ∧
      parse_type D.side toks (message_iter + 2) = some side ∧
      parse_type D.quantity toks (message_iter + 3) = some qty ∧
      (0 < qty ∧ qty ≤ L.max_order_quantity) ∧
      parse_type D.price toks (message_iter + 4) = none ∧
      get_order D L toks message_iter stats
        = ⟨.thrown "Order price syntax", message_iter + 4, stats.increment .price_parse⟩) ∨
    (∃ id side qty price, parse_type D.order_id toks (message_iter + 1) = some id ∧
      (0 < id ∧ id ≤ L.max_order_id) ∧
      parse_type D.side toks (message_iter + 2) = some side ∧
      parse_type D.quantity toks (message_iter + 3) = some qty ∧
      (0 < qty ∧ qty ≤ L.max_order_quantity) ∧
      parse_type D.price toks (message_iter + 4) = some price ∧
      ¬(0 < price ∧ price ≤ L.max_order_price) ∧
      get_order D L toks message_iter stats
        = ⟨.thrown "Order price range", message_iter + 4, stats.increment .price_range⟩) := by
  cases e1 : parse_type D.order_id toks (message_iter + 1) with
  | none => left; simp [get_order, e1]
  | some id =>
    right
    by_cases r1 : 0 < id ∧ id ≤ L.max_order_id
    swap
    · left; exact ⟨id, rfl, r1, by simp [get_order, e1, r1]⟩
    right
    cases e2 : parse_type D.side toks (message_iter + 2) with
    | none => left; exact ⟨id, rfl, r1, rfl, by simp [get_order, e1, e2, r1]⟩
    | some side =>
      right
      cases e3 : parse_type D.quantity toks (message_iter + 3) with
      | none => left; exact ⟨id, side, rfl, r1, rfl, rfl, by simp [get_order, e1, e2, e3, r1]⟩
      | some qty =>
        right
        by_cases r3 : 0 < qty ∧ qty ≤ L.max_order_quantity
        swap
        · left
          exact ⟨id, side, qty, rfl, r1, rfl, rfl, r3, by simp [get_order, e1, e2, e3, r1, r3]⟩
        right
        cases e4 : parse_type D.price toks (message_iter + 4) with
        | none =>
          left
          exact ⟨id, side, qty, rfl, r1, rfl, rfl, r3, rfl,
            by simp [get_order, e1, e2, e3, e4, r1, r3]⟩
        | some price =>
          right
          by_cases r4 : 0 < price ∧ price ≤ L.max_order_price
          · exfalso
            apply hfail ⟨id, side, qty, price⟩
            simp [get_order, e1, e2, e3, e4, r1, r3, r4]
          · exact ⟨id, side, qty, price, rfl, r1, rfl, rfl, r3, rfl, r4,
              by simp [get_order, e1, e2, e3, e4, r1, r3, r4]⟩

theorem get_order_failure_classified_witness :
    ∃ what it c, get_order csv sample_limits ["A", "1000001", "B", "0", "900"] 0 Stats.zero
      = ⟨.thrown what, it, Stats.zero.increment c⟩ := by
  have hfail : ∀ o, (get_order csv sample_limits ["A", "1000001", "B", "0", "900"] 0
      Stats.zero).outcome ≠ .returned o := by
    intro o h
    have e : (get_order csv sample_limits ["A", "1000001", "B", "0", "900"] 0
        Stats.zero).outcome = .thrown "Order quantity range" := by decide
    rw [e] at h
    cases h
  rcases get_order_failure_classified csv sample_limits ["A", "1000001", "B", "0", "900"] 0
      Stats.zero hfail with
    ⟨_, h⟩ | ⟨_, _, _, h⟩ | ⟨_, _, _, _, h⟩ | ⟨_, _, _, _, _, _, h⟩ |
    ⟨_, _, _, _, _, _, _, _, h⟩ | ⟨_, _, _, _, _, _, _, _, _, h⟩ |
    ⟨_, _, _, _, _, _, _, _, _, _, _, h⟩ <;> exact ⟨_, _, _, h⟩

/-! ## The event builder -/

/-- C3: when the token under the cursor converts to one of Add, Modify, Cancel, Trade,
Snapshot (the codes `A`, `M`, `X`, `T`, `S`), `get_event` returns that member, changes
no counter and does not move the cursor; when the token is missing, does not convert, or
leaves `Event::Unknown`, it throws `Corruption` and adds one to `event_error` only. -/
theorem get_event_classified {Tok : Type} (D : TokenTypes Tok) (toks : List Tok)
    (message_iter : Nat) (stats : Stats) :
    (∀ e, parse_type D.event toks message_iter = some e →
      e ∈ [Event.Add, Event.Modify, Event.Cancel, Event.Trade, Event.Snapshot] →
      e.code ∈ ['A', 'M', 'X', 'T', 'S'] ∧
      get_event D toks message_iter stats = ⟨.returned e, message_iter, stats⟩) ∧
    ((parse_type D.event toks message_iter = none ∨
        parse_type D.event toks message_iter = some Event.Unknown) →
      get_event D toks message_iter stats
        = ⟨.thrown "Corruption", message_iter, stats.increment .event_error⟩) := by
  constructor
  · intro e he hmem
    simp only [List.mem_cons, List.mem_singleton, List.not_mem_nil, or_false] at hmem
    rcases hmem with h | h | h | h | h <;> subst h <;>
      exact ⟨by decide, by simp [get_event, he, contains, Event.code]⟩
  · rintro (h | h) <;> simp [get_event, h, contains, Event.code]

theorem get_event_classified_witness :
    get_event csv ["S", "2", "10", "100", "101", "5", "1"] 0 Stats.zero
      = ⟨.returned Event.Snapshot, 0, Stats.zero⟩ ∧
    get_event csv ["Q", "2"] 0 Stats.zero
      = ⟨.thrown "Corruption", 0, Stats.zero.increment .event_error⟩ :=
  ⟨((get_event_classified csv ["S", "2", "10", "100", "101", "5", "1"] 0 Stats.zero).1
      Event.Snapshot (by decide) (by decide)).2,
   (get_event_classified csv ["Q", "2"] 0 Stats.zero).2 (Or.inl (by decide))⟩

/-! ## The trade builder -/

/-- C4: with a side that converts to Bid or Ask, `get_trade` returns
`Trade{side, qty, price}` for every quantity and price above zero, whatever their size (no
comparison with `max_order_quantity` or `max_order_price` is made), three tokens further
and with the counters untouched; and it throws, returning no Trade, whenever the quantity
token or the price token converts to a value that is not above zero. -/
theorem get_trade_bounds {Tok : Type} (D : TokenTypes Tok) (toks : List Tok)
    (message_iter : Nat) (stats : Stats) :
    (∀ side qty price, parse_type D.side toks (message_iter + 1) = some side →
      (side = Side.Bid ∨ side = Side.Ask) →
      parse_type D.quantity toks (message_iter + 2) = some qty →
      parse_type D.price toks (message_iter + 3) = some price →
      0 < qty → 0 < price →
      get_trade D toks message_iter stats
        = ⟨.returned ⟨side, qty, price⟩, message_iter + 3, stats⟩) ∧
    (∀ qty, parse_type D.quantity toks (message_iter + 2) = some qty → ¬ 0 < qty →
      ∃ what, (get_trade D toks message_iter stats).outcome = .thrown what) ∧
    (∀ price, parse_type D.price toks (message_iter + 3) = some price → ¬ 0 < price →
      ∃ what, (get_trade D toks message_iter stats).outcome = .thrown what) := by
  refine ⟨?_, ?_, ?_⟩
  · intro side qty price hs _ hq hp hq0 hp0
    simp [get_trade, hs, hq, hp, not_le.mpr hq0, not_le.mpr hp0]
  · intro qty hq hq0
    have hq0 : qty ≤ 0 := not_lt.mp hq0
    cases hs : parse_type D.side toks (message_iter + 1) with
    | none => simp [get_trade, hs]
    | some side => simp [get_trade, hs, hq, hq0]
  · intro price hp hp0
    have hp0 : price ≤ 0 := not_lt.mp hp0
    cases hs : parse_type D.side toks (message_iter + 1) with
    | none => simp [get_trade, hs]
    | some side =>
      cases hq : parse_type D.quantity toks (message_iter + 2) with
      | none => simp [get_trade, hs, hq]
      | some qty =>
        by_cases hq0 : qty ≤ 0
        · simp [get_trade, hs, hq, hq0]
        · simp [get_trade, hs, hq, hq0, hp, hp0]

theorem get_trade_bounds_witness :
    get_trade csv ["T", "B", "5000000", "7000000"] 0 Stats.zero
      = ⟨.returned ⟨Side.Bid, 5000000, 7000000⟩, 0 + 3, Stats.zero⟩ ∧
    (∃ what, (get_trade csv ["T", "B", "0", "900"] 0 Stats.zero).outcome = .thrown what) ∧
    (∃ what, (get_trade csv ["T", "S", "5", "0"] 0 Stats.zero).outcome = .thrown what) :=
  ⟨(get_trade_bounds csv ["T", "B", "5000000", "7000000"] 0 Stats.zero).1
      Side.Bid 5000000 7000000 (by decide) (by decide) (by decide) (by decide) (by decide)
      (by decide),
   (get_trade_bounds csv ["T", "B", "0", "900"] 0 Stats.zero).2.1 0 (by decide) (by decide),
   (get_trade_bounds csv ["T", "S", "5", "0"] 0 Stats.zero).2.2 0 (by decide) (by decide)⟩

/-! ## The snapshot level builders -/

theorem getElem?_append_length_add {α : Type} (pre xs : List α) (k : Nat) :
    (pre ++ xs)[pre.length + k]? = xs[k]? := by
  induction pre with
  | nil => simp
  | cons a pre ih => simpa [Nat.succ_add] using ih

theorem parse_type_append {Tok α : Type} (conv : Tok → Option α) (pre xs : List Tok)
    (k : Nat) (tok : Tok) (h : xs[k]? = some tok) :
    parse_type conv (pre ++ xs) (pre.length + k) = conv tok := by
  rw [parse_type_of_getElem? conv _ _ tok]
  rw [getElem?_append_length_add]
  exact h

theorem ladder_tokens_length {Tok : Type} (levels : List (Level Tok)) :
    (ladder_tokens levels).length = 6 * levels.length := by
  induction levels with
  | nil => rfl
  | cons l ls ih => simp [ladder_tokens, Level.tokens, ih]; omega

theorem ladder_orders_length {Tok : Type} (levels : List (Level Tok)) :
    (ladder_orders levels).length = 2 * levels.length := by
  induction levels with
  | nil => rfl
  | cons l ls ih => simp [ladder_orders, Level.orders, ih]; omega

/-- One pass of the loop over a valid level appends its two entries and goes on six
tokens further. -/
theorem get_orders_loop_level {Tok : Type} (D : TokenTypes Tok) (L : Limits)
    (pre : List Tok) (cur : Tok) (l : Level Tok) (rest : List Tok) (fuel : Nat)
    (stats : Stats) (orders : List Order) (hl : l.valid D L) :
    get_orders_loop D L (pre ++ cur :: (l.tokens ++ rest)) (fuel + 1) pre.length stats orders
      = get_orders_loop D L (pre ++ cur :: (l.tokens ++ rest)) fuel (pre.length + 6) stats
          (orders ++ l.orders) := by
  obtain ⟨h1, h2, ⟨h3, h3b⟩, h4, ⟨h5, h5b⟩, h6, ⟨h7, h7b⟩, h8, ⟨h9, h9b⟩, h10⟩ := hl
  obtain ⟨n1, hn1⟩ := Option.isSome_iff_exists.mp h1
  obtain ⟨n2, hn2⟩ := Option.isSome_iff_exists.mp h10
  have e1 : parse_type D.num (pre ++ cur :: (l.tokens ++ rest)) (pre.length + 1) = some n1 :=
    (parse_type_append D.num pre _ 1 l.bid_contrib_tok rfl).trans hn1
  have e2 : parse_type D.quantity (pre ++ cur :: (l.tokens ++ rest)) (pre.length + 2)
      = some l.bid_qty :=
    (parse_type_append D.quantity pre _ 2 l.bid_qty_tok rfl).trans h2
  have e3 : parse_type D.price (pre ++ cur :: (l.tokens ++ rest)) (pre.length + 3)
      = some l.bid_price :=
    (parse_type_append D.price pre _ 3 l.bid_price_tok rfl).trans h4
  have e4 : parse_type D.price (pre ++ cur :: (l.tokens ++ rest)) (pre.length + 3 + 1)
      = some l.ask_price :=
    (parse_type_append D.price pre _ 4 l.ask_price_tok rfl).trans h6
  have e5 : parse_type D.quantity (pre ++ cur :: (l.tokens ++ rest)) (pre.length + 3 + 2)
      = some l.ask_qty :=
    (parse_type_append D.quantity pre _ 5 l.ask_qty_tok rfl).trans h8
  have e6 : parse_type D.num (pre ++ cur :: (l.tokens ++ rest)) (pre.length + 3 + 3)
      = some n2 :=
    (parse_type_append D.num pre _ 6 l.ask_contrib_tok (by simp [Level.tokens])).trans hn2
  have hlen : pre.length + 1 ≠ (pre ++ cur :: (l.tokens ++ rest)).length := by
    simp [Level.tokens]
  have eb : get_snapshot_bid_order D L (pre ++ cur :: (l.tokens ++ rest)) pre.length stats
      = ⟨.returned ⟨synthetic_order_id 1000000 l.bid_price, Side.Bid, l.bid_qty, l.bid_price⟩,
          pre.length + 3, stats⟩ := by
    simp [get_snapshot_bid_order, e1, e2, e3, h3, h3b, h5, h5b]
  have ea : get_snapshot_ask_order D L (pre ++ cur :: (l.tokens ++ rest)) (pre.length + 3)
      stats = ⟨.returned ⟨synthetic_order_id 2000000 l.ask_price, Side.Ask, l.ask_qty,
          l.ask_price⟩,
          pre.length + 3 + 3, stats⟩ := by
    simp [get_snapshot_ask_order, e4, e5, e6, h7, h7b, h9, h9b]
  rw [get_orders_loop, if_pos hlen, eb]
  simp only [ea]
  rfl

/-- Over a message that is exactly the cursor token followed by valid levels, the loop
returns their ladder whenever the fuel exceeds the number of levels. -/
theorem get_orders_loop_ladder {Tok : Type} (D : TokenTypes Tok) (L : Limits)
    (levels : List (Level Tok)) :
    ∀ (pre : List Tok) (cur : Tok) (fuel : Nat) (stats : Stats) (orders : List Order),
      (∀ l ∈ levels, l.valid D L) → levels.length < fuel →
      get_orders_loop D L (pre ++ cur :: ladder_tokens levels) fuel pre.length stats orders
        = some ⟨.returned (orders ++ ladder_orders levels),
            pre.length + 6 * levels.length, stats⟩ := by
  induction levels with
  | nil =>
    intro pre cur fuel stats orders _ hfuel
    obtain ⟨f, rfl⟩ : ∃ f, fuel = f + 1 := ⟨fuel - 1, by simp at hfuel; omega⟩
    simp [get_orders_loop, ladder_tokens, ladder_orders]
  | cons l ls ih =>
    intro pre cur fuel stats orders hvalid hfuel
    obtain ⟨f, rfl⟩ : ∃ f, fuel = f + 1 := ⟨fuel - 1, by simp at hfuel; omega⟩
    have hl : l.valid D L := hvalid l (List.mem_cons_self _ _)
    have hls : ∀ x ∈ ls, x.valid D L := fun x hx => hvalid x (List.mem_cons_of_mem _ hx)
    have hf : ls.length < f := by simp at hfuel; omega
    have hstep := get_orders_loop_level D L pre cur l (ladder_tokens ls) f stats orders hl
    have hih := ih (pre ++ [cur, l.bid_contrib_tok, l.bid_qty_tok, l.bid_price_tok,
      l.ask_price_tok, l.ask_qty_tok]) l.ask_contrib_tok f stats (orders ++ l.orders) hls hf
    have htoks : pre ++ cur :: (l.tokens ++ ladder_tokens ls)
        = (pre ++ [cur, l.bid_contrib_tok, l.bid_qty_tok, l.bid_price_tok,
            l.ask_price_tok, l.ask_qty_tok]) ++ l.ask_contrib_tok :: ladder_tokens ls := by
      simp [Level.tokens]
    have hlen : (pre ++ [cur, l.bid_contrib_tok, l.bid_qty_tok, l.bid_price_tok,
        l.ask_price_tok, l.ask_qty_tok]).length = pre.length + 6 := by simp
    rw [ladder_tokens, hstep, htoks]
    rw [hlen] at hih
    rw [hih]
    simp [ladder_orders, List.append_assoc]
    omega

/-- The entries the level builders make of valid levels are the ladder of those levels. -/
theorem ladder_orders_of_levels {Tok : Type} (levels : List (Level Tok))
    (hpos : ∀ l ∈ levels, 0 < l.bid_price ∧ 0 < l.ask_price) :
    ladder_of_levels levels (ladder_orders levels) := by
  refine ⟨ladder_orders_length levels, ?_⟩
  induction levels with
  | nil => intro k l h; simp at h
  | cons l0 ls ih =>
    intro k l h
    cases k with
    | zero =>
      simp only [List.getElem?_cons_zero, Option.some.injEq] at h
      subst h
      obtain ⟨hb, ha⟩ := hpos l0 (List.mem_cons_self _ _)
      refine ⟨⟨synthetic_order_id 1000000 l0.bid_price, Side.Bid, l0.bid_qty, l0.bid_price⟩,
        ⟨synthetic_order_id 2000000 l0.ask_price, Side.Ask, l0.ask_qty, l0.ask_price⟩,
        by simp [ladder_orders, Level.orders], by simp [ladder_orders, Level.orders],
        ⟨rfl, rfl, rfl, ?_⟩, ⟨rfl, rfl, rfl, ?_⟩⟩
      · intro hle
        have := synthetic_order_id_exact 1000000 l0.bid_price (by decide) (by omega)
          (by omega)
        simp only [this]
        omega
      · intro hle
        have := synthetic_order_id_exact 2000000 l0.ask_price (by decide) (by omega)
          (by omega)
        simp only [this]
        omega
    | succ j =>
      rw [List.getElem?_cons_succ] at h
      obtain ⟨bid, ask, h1, h2, hbid, hask⟩ :=
        ih (fun x hx => hpos x (List.mem_cons_of_mem _ hx)) j l h
      have e1 : 2 * (j + 1) = (2 * j + 1) + 1 := by omega
      have e2 : 2 * (j + 1) + 1 = (2 * j + 1 + 1) + 1 := by omega
      refine ⟨bid, ask, ?_, ?_, hbid, hask⟩
      · rw [e1]
        simpa [ladder_orders, Level.orders] using h1
      · rw [e2]
        simpa [ladder_orders, Level.orders] using h2

theorem Level.valid_prices {Tok : Type} (D : TokenTypes Tok) (L : Limits)
    (levels : List (Level Tok)) (hvalid : ∀ l ∈ levels, l.valid D L) :
    ∀ l ∈ levels, 0 < l.bid_price ∧ 0 < l.ask_price :=
  fun l hl => ⟨(hvalid l hl).2.2.2.2.1.1, (hvalid l hl).2.2.2.2.2.2.1.1⟩

/-- C6: for a message that is the token under the cursor followed by exactly N valid
bid/ask levels (six tokens each: `contrib, qty, price, price, qty, contrib`) and nothing
else, `get_orders` returns, without throwing and without touching a counter, a sequence
of exactly 2N entries, bid 1, ask 1, bid 2, ask 2, ... in transmitted order (entry `2k` is
the Bid entry with the quantity and price of level `k`, entry `2k+1` the Ask entry), and
stops with the cursor on the last token. -/
theorem get_orders_exact_levels {Tok : Type} (D : TokenTypes Tok) (L : Limits)
    (pre : List Tok) (cur : Tok) (levels : List (Level Tok)) (stats : Stats)
    (hvalid : ∀ l ∈ levels, l.valid D L) :
    ∃ ladder,
      get_orders D L (pre ++ cur :: ladder_tokens levels) pre.length stats
        = some ⟨.returned ladder, pre.length + 6 * levels.length, stats⟩ ∧
      ladder_of_levels levels ladder ∧
      pre.length + 6 * levels.length + 1 = (pre ++ cur :: ladder_tokens levels).length := by
  refine ⟨ladder_orders levels, ?_,
    ladder_orders_of_levels levels (Level.valid_prices D L levels hvalid), ?_⟩
  · have h := get_orders_loop_ladder D L levels pre cur
      ((pre ++ cur :: ladder_tokens levels).length + 1) stats [] hvalid
      (by simp [ladder_tokens_length]; omega)
    simpa [get_orders] using h
  · simp [ladder_tokens_length]; omega

theorem get_orders_exact_levels_witness :
    ∃ ladder,
      get_orders csv sample_limits
          (["S"] ++ "S" :: ladder_tokens
            [⟨"2", "10", "100", "101", "5", "1", 10, 100, 101, 5⟩,
              ⟨"1", "7", "99", "102", "8", "3", 7, 99, 102, 8⟩])
          (["S"] : List String).length Stats.zero
        = some ⟨.returned ladder,
            (["S"] : List String).length + 6 * [(⟨"2", "10", "100", "101", "5", "1", 10, 100,
              101, 5⟩ : Level String), ⟨"1", "7", "99", "102", "8", "3", 7, 99, 102,
              8⟩].length, Stats.zero⟩ ∧
      ladder_of_levels [(⟨"2", "10", "100", "101", "5", "1", 10, 100, 101, 5⟩ : Level String),
        ⟨"1", "7", "99", "102", "8", "3", 7, 99, 102, 8⟩] ladder :=
  (get_orders_exact_levels csv sample_limits ["S"] "S"
    [⟨"2", "10", "100", "101", "5", "1", 10, 100, 101, 5⟩,
      ⟨"1", "7", "99", "102", "8", "3", 7, 99, 102, 8⟩] Stats.zero (by decide)).imp
    (fun _ h => ⟨h.1, h.2.1⟩)

/-! ## The embedded-trade builders -/

/-- C7: when the token after the cursor is missing or does not convert to a Side,
`get_trades` returns the empty sequence, throws nothing, leaves every counter as it was,
and leaves the cursor two tokens beyond the Side position, three beyond where it was. -/
theorem get_trades_absent {Tok : Type} (D : TokenTypes Tok) (toks : List Tok)
    (message_iter : Nat) (stats : Stats)
    (hside : parse_type D.side toks (message_iter + 1) = none) :
    get_trades D toks message_iter stats = ⟨.returned [], message_iter + 3, stats⟩ := by
  simp [get_trades, get_snapshot_trade, hside]

theorem get_trades_absent_witness :
    get_trades csv ["S", "x", "5", "900", "7"] 0 Stats.zero = ⟨.returned [], 3, Stats.zero⟩ ∧
    get_trades csv ["S"] 0 Stats.zero = ⟨.returned [], 3, Stats.zero⟩ :=
  ⟨get_trades_absent csv ["S", "x", "5", "900", "7"] 0 Stats.zero (by decide),
   get_trades_absent csv ["S"] 0 Stats.zero (by decide)⟩

/-- C8: for tokens `side, qty, price` after the cursor with a side that converts to Bid or
Ask, a quantity above zero and a price above zero, `get_trades` returns the one-element
sequence `[Trade{side, qty, price}]` with the cursor three tokens further and the counters
untouched; and whenever `get_trades` returns, on any input, the sequence has at most one
element. -/
theorem get_trades_single {Tok : Type} (D : TokenTypes Tok) (toks : List Tok)
    (message_iter : Nat) (stats : Stats) (side : Side) (qty price : Int)
    (hside : parse_type D.side toks (message_iter + 1) = some side)
    (hvalid : side = Side.Bid ∨ side = Side.Ask)
    (hqty : parse_type D.quantity toks (message_iter + 2) = some qty)
    (hprice : parse_type D.price toks (message_iter + 3) = some price)
    (hqty_pos : 0 < qty) (hprice_pos : 0 < price) :
    get_trades D toks message_iter stats
        = ⟨.returned [⟨side, qty, price⟩], message_iter + 3, stats⟩ ∧
      ∀ (toks2 : List Tok) (iter2 : Nat) (stats2 : Stats) (trades : List Trade),
        (get_trades D toks2 iter2 stats2).outcome = .returned trades → trades.length ≤ 1 := by
  constructor
  · have hne : side ≠ Side.Unknown := by rcases hvalid with h | h <;> simp [h]
    simp [get_trades, get_snapshot_trade, hside, hqty, hprice, not_le.mpr hqty_pos,
      not_le.mpr hprice_pos, hne]
  · intro toks2 iter2 stats2 trades h
    unfold get_trades at h
    split at h
    · simp at h
    · split at h <;> simp at h <;> subst h <;> simp

theorem get_trades_single_witness :
    get_trades csv ["S", "B", "5", "900"] 0 Stats.zero
      = ⟨.returned [⟨Side.Bid, 5, 900⟩], 0 + 3, Stats.zero⟩ :=
  (get_trades_single csv ["S", "B", "5", "900"] 0 Stats.zero Side.Bid 5 900 (by decide)
    (by decide) (by decide) (by decide) (by decide) (by decide)).1

/-- C9 (what the code does at the failing input): on the messages `T,B,5,0` the side and
the quantity are valid and the price converts to 0; `get_trade` and `get_snapshot_trade`
throw "Trade price range" but add one to `price_parse`, and `price_range` stays at its
old value. -/
theorem trade_price_range_counts_as_parse :
    get_trade csv ["T", "B", "5", "0"] 0 Stats.zero
      = ⟨.thrown "Trade price range", 3, ⟨0, 0, 0, 0, 0, 0, 1, 0⟩⟩ ∧
    get_snapshot_trade csv ["T", "B", "5", "0"] 0 Stats.zero
      = ⟨.thrown "Trade price range", 3, ⟨0, 0, 0, 0, 0, 0, 1, 0⟩⟩ ∧
    (get_trade csv ["T", "B", "5", "0"] 0 Stats.zero).stats
      ≠ Stats.zero.increment .price_range ∧
    (get_snapshot_trade csv ["T", "B", "5", "0"] 0 Stats.zero).stats
      ≠ Stats.zero.increment .price_range ∧
    get_order csv sample_limits ["A", "7", "B", "5", "0"] 0 Stats.zero
      = ⟨.thrown "Order price range", 4, ⟨0, 0, 0, 0, 0, 0, 0, 1⟩⟩ := by
  decide

/-! ## Counters on the failure paths -/

theorem get_event_stats {Tok : Type} (D : TokenTypes Tok) (toks : List Tok)
    (message_iter : Nat) (stats : Stats) :
    (∃ v it, get_event D toks message_iter stats = ⟨.returned v, it, stats⟩) ∨
    (∃ what it c, get_event D toks message_iter stats
      = ⟨.thrown what, it, stats.increment c⟩) := by
  unfold get_event
  simp only []
  split
  · exact Or.inr ⟨_, _, _, rfl⟩
  · exact Or.inl ⟨_, _, rfl⟩

theorem get_order_stats {Tok : Type} (D : TokenTypes Tok) (L : Limits) (toks : List Tok)
    (message_iter : Nat) (stats : Stats) :
    (∃ v it, get_order D L toks message_iter stats = ⟨.returned v, it, stats⟩) ∨
    (∃ what it c, get_order D L toks message_iter stats
      = ⟨.thrown what, it, stats.increment c⟩) := by
  unfold get_order
  repeat' split
  all_goals first
    | exact Or.inr ⟨_, _, _, rfl⟩
    | exact Or.inl ⟨_, _, rfl⟩

theorem get_trade_stats {Tok : Type} (D : TokenTypes Tok) (toks : List Tok)
    (message_iter : Nat) (stats : Stats) :
    (∃ v it, get_trade D toks message_iter stats = ⟨.returned v, it, stats⟩) ∨
    (∃ what it c, get_trade D toks message_iter stats
      = ⟨.thrown what, it, stats.increment c⟩) := by
  unfold get_trade
  repeat' split
  all_goals first
    | exact Or.inr ⟨_, _, _, rfl⟩
    | exact Or.inl ⟨_, _, rfl⟩

theorem get_snapshot_trade_stats {Tok : Type} (D : TokenTypes Tok) (toks : List Tok)
    (message_iter : Nat) (stats : Stats) :
    (∃ v it, get_snapshot_trade D toks message_iter stats = ⟨.returned v, it, stats⟩) ∨
    (∃ what it c, get_snapshot_trade D toks message_iter stats
      = ⟨.thrown what, it, stats.increment c⟩) := by
  unfold get_snapshot_trade
  repeat' split
  all_goals first
    | exact Or.inr ⟨_, _, _, rfl⟩
    | exact Or.inl ⟨_, _, rfl⟩

theorem get_snapshot_bid_order_stats {Tok : Type} (D : TokenTypes Tok) (L : Limits)
    (toks : List Tok) (message_iter : Nat) (stats : Stats) :
    (∃ v it, get_snapshot_bid_order D L toks message_iter stats = ⟨.returned v, it, stats⟩) ∨
    (∃ it, get_snapshot_bid_order D L toks message_iter stats
      = ⟨.thrown "Order number of contributors syntax", it, stats⟩) ∨
    (∃ what it c, what ≠ "Order number of contributors syntax" ∧
      get_snapshot_bid_order D L toks message_iter stats
        = ⟨.thrown what, it, stats.increment c⟩) := by
  unfold get_snapshot_bid_order
  repeat' split
  all_goals first
    | exact Or.inr (Or.inr ⟨_, _, _, by decide, rfl⟩)
    | exact Or.inr (Or.inl ⟨_, rfl⟩)
    | exact Or.inl ⟨_, _, rfl⟩

theorem get_snapshot_ask_order_stats {Tok : Type} (D : TokenTypes Tok) (L : Limits)
    (toks : List Tok) (message_iter : Nat) (stats : Stats) :
    (∃ v it, get_snapshot_ask_order D L toks message_iter stats = ⟨.returned v, it, stats⟩) ∨
    (∃ it, get_snapshot_ask_order D L toks message_iter stats
      = ⟨.thrown "Order number of contributors syntax", it, stats⟩) ∨
    (∃ what it c, what ≠ "Order number of contributors syntax" ∧
      get_snapshot_ask_order D L toks message_iter stats
        = ⟨.thrown what, it, stats.increment c⟩) := by
  unfold get_snapshot_ask_order
  repeat' split
  all_goals first
    | exact Or.inr (Or.inr ⟨_, _, _, by decide, rfl⟩)
    | exact Or.inr (Or.inl ⟨_, rfl⟩)
    | exact Or.inl ⟨_, _, rfl⟩

theorem parse_type_lt {Tok α : Type} (conv : Tok → Option α) (toks : List Tok) (i : Nat)
    (v : α) (h : parse_type conv toks i = some v) : i < toks.length := by
  by_contra hlt
  rw [parse_type_past_end conv toks i (not_lt.mp hlt)] at h
  cases h

theorem get_order_returned {Tok : Type} (D : TokenTypes Tok) (L : Limits) (toks : List Tok)
    (message_iter : Nat) (stats : Stats) (o : Order) (it : Nat) (st : Stats)
    (h : get_order D L toks message_iter stats = ⟨.returned o, it, st⟩) :
    it = message_iter + 4 ∧ st = stats ∧
    parse_type D.order_id toks (message_iter + 1) = some o.id ∧
    (0 < o.id ∧ o.id ≤ L.max_order_id) ∧
    parse_type D.side toks (message_iter + 2) = some o.side ∧
    parse_type D.quantity toks (message_iter + 3) = some o.quantity ∧
    (0 < o.quantity ∧ o.quantity ≤ L.max_order_quantity) ∧
    parse_type D.price toks (message_iter + 4) = some o.price ∧
    (0 < o.price ∧ o.price ≤ L.max_order_price) := by
  unfold get_order at h
  repeat' split at h
  all_goals simp_all
  all_goals (obtain ⟨rfl, rfl, rfl⟩ := h; simp_all)

theorem get_snapshot_bid_order_returned {Tok : Type} (D : TokenTypes Tok) (L : Limits)
    (toks : List Tok) (message_iter : Nat) (stats : Stats) (o : Order) (it : Nat)
    (st : Stats)
    (h : get_snapshot_bid_order D L toks message_iter stats = ⟨.returned o, it, st⟩) :
    it = message_iter + 3 ∧ st = stats ∧
    (parse_type D.num toks (message_iter + 1)).isSome = true ∧
    parse_type D.quantity toks (message_iter + 2) = some o.quantity ∧
    (0 < o.quantity ∧ o.quantity ≤ L.max_order_quantity) ∧
    parse_type D.price toks (message_iter + 3) = some o.price ∧
    (0 < o.price ∧ o.price ≤ L.max_order_price) ∧
    o.side = Side.Bid ∧ o.id = synthetic_order_id 1000000 o.price := by
  unfold get_snapshot_bid_order at h
  repeat' split at h
  all_goals simp_all
  all_goals (obtain ⟨rfl, rfl, rfl⟩ := h; simp_all)

theorem get_snapshot_ask_order_returned {Tok : Type} (D : TokenTypes Tok) (L : Limits)
    (toks : List Tok) (message_iter : Nat) (stats : Stats) (o : Order) (it : Nat)
    (st : Stats)
    (h : get_snapshot_ask_order D L toks message_iter stats = ⟨.returned o, it, st⟩) :
    it = message_iter + 3 ∧ st = stats ∧
    parse_type D.price toks (message_iter + 1) = some o.price ∧
    (0 < o.price ∧ o.price ≤ L.max_order_price) ∧
    parse_type D.quantity toks (message_iter + 2) = some o.quantity ∧
    (0 < o.quantity ∧ o.quantity ≤ L.max_order_quantity) ∧
    (parse_type D.num toks (message_iter + 3)).isSome = true ∧
    o.side = Side.Ask ∧ o.id = synthetic_order_id 2000000 o.price := by
  unfold get_snapshot_ask_order at h
  repeat' split at h
  all_goals simp_all
  all_goals (obtain ⟨rfl, rfl, rfl⟩ := h; simp_all)

/-! ## The ladder loop: what it returns, and that it finishes -/

/-- When the loop returns, the counters are the ones it started with, the cursor is on the
last token, and what was appended to `orders` is a ladder read from where it started. -/
theorem get_orders_loop_returned {Tok : Type} (D : TokenTypes Tok) (L : Limits)
    (toks : List Tok) :
    ∀ (fuel message_iter : Nat) (stats : Stats) (orders out : List Order) (it : Nat)
      (st : Stats),
      get_orders_loop D L toks fuel message_iter stats orders = some ⟨.returned out, it, st⟩ →
      st = stats ∧ it + 1 = toks.length ∧
        ∃ new, out = orders ++ new ∧ ladder_read D toks message_iter new := by
  intro fuel
  induction fuel with
  | zero =>
    intro message_iter stats orders out it st h
    simp [get_orders_loop] at h
  | succ f ih =>
    intro message_iter stats orders out it st h
    rw [get_orders_loop] at h
    by_cases hc : message_iter + 1 ≠ toks.length
    · rw [if_pos hc] at h
      rcases hb : get_snapshot_bid_order D L toks message_iter stats with ⟨ob, itb, stb⟩
      rw [hb] at h
      cases ob with
      | thrown what => simp at h
      | returned bid =>
        simp only at h
        rcases ha : get_snapshot_ask_order D L toks itb stb with ⟨oa, ita, sta⟩
        rw [ha] at h
        cases oa with
        | thrown what => simp at h
        | returned ask =>
          simp only at h
          obtain ⟨rfl, rfl, -, hbq, -, hbp, hbr, hbs, hbi⟩ :=
            get_snapshot_bid_order_returned D L toks message_iter stats bid itb stb hb
          obtain ⟨rfl, rfl, hap, har, haq, -, -, has, hai⟩ :=
            get_snapshot_ask_order_returned D L toks _ _ ask ita sta ha
          obtain ⟨hst, hit, new, hout, hnew⟩ := ih _ _ _ _ _ _ h
          refine ⟨hst, hit, bid :: ask :: new, by simp [hout], ?_⟩
          exact ⟨⟨hbs, ⟨hbr.1, hbi⟩, hbq, hbp⟩, ⟨has, ⟨har.1, hai⟩, hap, haq⟩, hnew⟩
    · rw [if_neg hc] at h
      simp only [Option.some.injEq, Result.mk.injEq, Outcome.returned.injEq] at h
      obtain ⟨rfl, rfl, rfl⟩ := h
      exact ⟨rfl, not_not.mp hc, [], by simp, trivial⟩

/-- The loop finishes whenever the fuel covers the tokens from the cursor to the end. -/
theorem get_orders_loop_finishes {Tok : Type} (D : TokenTypes Tok) (L : Limits)
    (toks : List Tok) :
    ∀ (fuel message_iter : Nat) (stats : Stats) (orders : List Order),
      0 < fuel → toks.length < fuel + message_iter →
      ∃ r, get_orders_loop D L toks fuel message_iter stats orders = some r := by
  intro fuel
  induction fuel with
  | zero => intro _ _ _ h; exact absurd h (by decide)
  | succ f ih =>
    intro message_iter stats orders _ hlen
    rw [get_orders_loop]
    by_cases hc : message_iter + 1 ≠ toks.length
    · rw [if_pos hc]
      rcases hb : get_snapshot_bid_order D L toks message_iter stats with ⟨ob, itb, stb⟩
      cases ob with
      | thrown what => exact ⟨_, rfl⟩
      | returned bid =>
        simp only
        rcases ha : get_snapshot_ask_order D L toks itb stb with ⟨oa, ita, sta⟩
        cases oa with
        | thrown what => exact ⟨_, rfl⟩
        | returned ask =>
          simp only
          obtain ⟨rfl, rfl, -, -, -, -, -, -, -⟩ :=
            get_snapshot_bid_order_returned D L toks message_iter stats bid itb stb hb
          obtain ⟨rfl, rfl, -, -, -, -, hn, -, -⟩ :=
            get_snapshot_ask_order_returned D L toks _ _ ask ita sta ha
          obtain ⟨n, hn⟩ := Option.isSome_iff_exists.mp hn
          have hlt := parse_type_lt D.num toks _ n hn
          exact ih _ _ _ (by omega) (by omega)
    · rw [if_neg hc]
      exact ⟨_, rfl⟩

/-- More fuel does not change what the loop gives. -/
theorem get_orders_loop_more_fuel {Tok : Type} (D : TokenTypes Tok) (L : Limits)
    (toks : List Tok) :
    ∀ (fuel extra message_iter : Nat) (stats : Stats) (orders : List Order)
      (r : Result (List Order)),
      get_orders_loop D L toks fuel message_iter stats orders = some r →
      get_orders_loop D L toks (fuel + extra) message_iter stats orders = some r := by
  intro fuel
  induction fuel with
  | zero =>
    intro extra message_iter stats orders r h
    simp [get_orders_loop] at h
  | succ f ih =>
    intro extra message_iter stats orders r h
    have hfuel : f + 1 + extra = (f + extra) + 1 := by omega
    rw [hfuel, get_orders_loop]
    rw [get_orders_loop] at h
    by_cases hc : message_iter + 1 ≠ toks.length
    · rw [if_pos hc] at h ⊢
      rcases hb : get_snapshot_bid_order D L toks message_iter stats with ⟨ob, itb, stb⟩
      rw [hb] at h
      cases ob with
      | thrown what => exact h
      | returned bid =>
        simp only at h ⊢
        rcases ha : get_snapshot_ask_order D L toks itb stb with ⟨oa, ita, sta⟩
        rw [ha] at h
        cases oa with
        | thrown what => exact h
        | returned ask =>
          simp only at h ⊢
          exact ih _ _ _ _ _ h
    · rw [if_neg hc] at h ⊢
      exact h

/-- With the cursor not on the last token and fewer than six tokens beyond it, a pass of
the loop throws: the level it starts cannot be completed. -/
theorem get_orders_loop_partial_level {Tok : Type} (D : TokenTypes Tok) (L : Limits)
    (toks : List Tok) (fuel message_iter : Nat) (stats : Stats) (orders : List Order)
    (hc : message_iter + 1 ≠ toks.length) (hshort : toks.length ≤ message_iter + 6) :
    ∃ what it st, get_orders_loop D L toks (fuel + 1) message_iter stats orders
      = some ⟨.thrown what, it, st⟩ := by
  rw [get_orders_loop, if_pos hc]
  rcases hb : get_snapshot_bid_order D L toks message_iter stats with ⟨ob, itb, stb⟩
  cases ob with
  | thrown what => exact ⟨_, _, _, rfl⟩
  | returned bid =>
    simp only
    rcases ha : get_snapshot_ask_order D L toks itb stb with ⟨oa, ita, sta⟩
    cases oa with
    | thrown what => exact ⟨_, _, _, rfl⟩
    | returned ask =>
      exfalso
      obtain ⟨rfl, rfl, -, -, -, -, -, -, -⟩ :=
        get_snapshot_bid_order_returned D L toks message_iter stats bid itb stb hb
      obtain ⟨rfl, rfl, -, -, -, -, hn, -, -⟩ :=
        get_snapshot_ask_order_returned D L toks _ _ ask ita sta ha
      obtain ⟨n, hn⟩ := Option.isSome_iff_exists.mp hn
      have hlt := parse_type_lt D.num toks _ n hn
      omega

/-- C14 (counterexample): on the message `S,2` with the cursor on `S`, the second-to-last
token, `get_orders` does start a level: it reads `2` as the contributor count, finds no
quantity, adds one to `quantity_parse` and throws. -/
theorem get_orders_second_to_last_throws :
    (0 : Nat) + 2 = (["S", "2"] : List String).length ∧
    get_orders csv sample_limits ["S", "2"] 0 Stats.zero
      = some ⟨.thrown "Order quantity syntax", 2, Stats.zero.increment .quantity_parse⟩ := by
  decide

/-- C14 (amended): `get_orders` starts a bid/ask level whenever the cursor is not on the
last token.  With the cursor on the last token it decodes nothing and returns the ladder
built so far (empty when called there), without throwing and with the counters untouched;
with the cursor on the second-to-last token it starts a level and throws. -/
theorem get_orders_stops_on_last_token {Tok : Type} (D : TokenTypes Tok) (L : Limits)
    (toks : List Tok) (message_iter : Nat) (stats : Stats) :
    (message_iter + 1 = toks.length →
      get_orders D L toks message_iter stats = some ⟨.returned [], message_iter, stats⟩ ∧
      ∀ fuel orders, get_orders_loop D L toks (fuel + 1) message_iter stats orders
        = some ⟨.returned orders, message_iter, stats⟩) ∧
    (message_iter + 2 = toks.length →
      ∃ what it st, get_orders D L toks message_iter stats = some ⟨.thrown what, it, st⟩) := by
  constructor
  · intro h
    constructor
    · simp [get_orders, get_orders_loop, h]
    · intro fuel orders
      simp [get_orders_loop, h]
  · intro h
    exact get_orders_loop_partial_level D L toks toks.length message_iter stats []
      (by omega) (by omega)

theorem get_orders_stops_on_last_token_witness :
    get_orders csv sample_limits ["S", "2", "10", "100", "101", "5", "1"] 6 Stats.zero
      = some ⟨.returned [], 6, Stats.zero⟩ ∧
    ∃ what it st, get_orders csv sample_limits ["S", "2"] 0 Stats.zero
      = some ⟨.thrown what, it, st⟩ :=
  ⟨((get_orders_stops_on_last_token csv sample_limits
      ["S", "2", "10", "100", "101", "5", "1"] 6 Stats.zero).1 (by decide)).1,
   (get_orders_stops_on_last_token csv sample_limits ["S", "2"] 0 Stats.zero).2 (by decide)⟩

/-- C18: `get_orders` finishes on every message and from every cursor position: the loop
ends, with a ladder or with an exception, within the `toks.length + 1` passes it is given,
and giving it more passes changes nothing. -/
theorem get_orders_terminates {Tok : Type} (D : TokenTypes Tok) (L : Limits)
    (toks : List Tok) (message_iter : Nat) (stats : Stats) :
    ∃ r, get_orders D L toks message_iter stats = some r ∧
      ((∃ ladder, r.outcome = .returned ladder) ∨ (∃ what, r.outcome = .thrown what)) ∧
      ∀ extra, get_orders_loop D L toks (toks.length + 1 + extra) message_iter stats []
        = some r := by
  obtain ⟨r, hr⟩ := get_orders_loop_finishes D L toks (toks.length + 1) message_iter stats []
    (by omega) (by omega)
  refine ⟨r, hr, ?_, ?_⟩
  · rcases r with ⟨o, it, st⟩
    cases o with
    | returned v => exact Or.inl ⟨v, rfl⟩
    | thrown w => exact Or.inr ⟨w, rfl⟩
  · intro extra
    exact get_orders_loop_more_fuel D L toks _ extra _ _ _ r hr

/-- C19: whenever `get_orders` returns, the cursor is on the last token of the message
(cursor + 1 = end); so a `get_trades` call made next on that cursor finds no Side token,
returns the empty sequence, throws nothing and leaves the counters as they were. -/
theorem get_trades_after_get_orders {Tok : Type} (D : TokenTypes Tok) (L : Limits)
    (toks : List Tok) (message_iter : Nat) (stats : Stats) (ladder : List Order) (it : Nat)
    (st : Stats)
    (h : get_orders D L toks message_iter stats = some ⟨.returned ladder, it, st⟩) :
    it + 1 = toks.length ∧ st = stats ∧
      parse_type D.side toks (it + 1) = none ∧
      get_trades D toks it st = ⟨.returned [], it + 3, stats⟩ := by
  obtain ⟨hst, hit, -⟩ := get_orders_loop_returned D L toks _ _ _ _ _ _ _ h
  have hnone : parse_type D.side toks (it + 1) = none :=
    parse_type_past_end D.side toks (it + 1) (by omega)
  subst hst
  exact ⟨hit, rfl, hnone, by simp [get_trades, get_snapshot_trade, hnone]⟩

theorem get_trades_after_get_orders_witness :
    (6 : Nat) + 1 = (["S", "2", "10", "100", "101", "5", "1"] : List String).length ∧
    Stats.zero = Stats.zero ∧
    parse_type csv.side ["S", "2", "10", "100", "101", "5", "1"] (6 + 1) = none ∧
    get_trades csv ["S", "2", "10", "100", "101", "5", "1"] 6 Stats.zero
      = ⟨.returned [], 6 + 3, Stats.zero⟩ :=
  get_trades_after_get_orders csv sample_limits ["S", "2", "10", "100", "101", "5", "1"] 0
    Stats.zero [⟨1000100, Side.Bid, 10, 100⟩, ⟨2000101, Side.Ask, 5, 101⟩] 6 Stats.zero
    (by decide)

/-! ## Counters on the return paths -/

theorem get_trades_stats {Tok : Type} (D : TokenTypes Tok) (toks : List Tok)
    (message_iter : Nat) (stats : Stats) :
    (∃ v it, get_trades D toks message_iter stats = ⟨.returned v, it, stats⟩) ∨
    (∃ what it c, get_trades D toks message_iter stats
      = ⟨.thrown what, it, stats.increment c⟩) := by
  unfold get_trades
  rcases get_snapshot_trade_stats D toks message_iter stats with ⟨v, it, e⟩ | ⟨w, it, c, e⟩
  · rw [e]
    simp only
    split
    · exact Or.inl ⟨_, _, rfl⟩
    · exact Or.inl ⟨_, _, rfl⟩
  · rw [e]
    exact Or.inr ⟨_, _, _, rfl⟩

/-- C15: the counters are touched on failure paths only: whenever `get_event`,
`get_order`, `get_trade`, `get_snapshot_bid_order`, `get_snapshot_ask_order`, `get_orders`,
`get_snapshot_trade` or `get_trades` returns a value, all eight counters are what they were
before the call. -/
theorem counters_unchanged_on_return {Tok : Type} (D : TokenTypes Tok) (L : Limits)
    (toks : List Tok) (message_iter : Nat) (stats : Stats) :
    (∀ v, (get_event D toks message_iter stats).outcome = .returned v →
      (get_event D toks message_iter stats).stats = stats) ∧
    (∀ v, (get_order D L toks message_iter stats).outcome = .returned v →
      (get_order D L toks message_iter stats).stats = stats) ∧
    (∀ v, (get_trade D toks message_iter stats).outcome = .returned v →
      (get_trade D toks message_iter stats).stats = stats) ∧
    (∀ v, (get_snapshot_bid_order D L toks message_iter stats).outcome = .returned v →
      (get_snapshot_bid_order D L toks message_iter stats).stats = stats) ∧
    (∀ v, (get_snapshot_ask_order D L toks message_iter stats).outcome = .returned v →
      (get_snapshot_ask_order D L toks message_iter stats).stats = stats) ∧
    (∀ r v, get_orders D L toks message_iter stats = some r → r.outcome = .returned v →
      r.stats = stats) ∧
    (∀ v, (get_snapshot_trade D toks message_iter stats).outcome = .returned v →
      (get_snapshot_trade D toks message_iter stats).stats = stats) ∧
    (∀ v, (get_trades D toks message_iter stats).outcome = .returned v →
      (get_trades D toks message_iter stats).stats = stats) := by
  refine ⟨?_, ?_, ?_, ?_, ?_, ?_, ?_, ?_⟩
  · intro v h
    rcases get_event_stats D toks message_iter stats with ⟨_, _, e⟩ | ⟨_, _, _, e⟩
    · rw [e]
    · rw [e] at h; cases h
  · intro v h
    rcases get_order_stats D L toks message_iter stats with ⟨_, _, e⟩ | ⟨_, _, _, e⟩
    · rw [e]
    · rw [e] at h; cases h
  · intro v h
    rcases get_trade_stats D toks message_iter stats with ⟨_, _, e⟩ | ⟨_, _, _, e⟩
    · rw [e]
    · rw [e] at h; cases h
  · intro v h
    rcases get_snapshot_bid_order_stats D L toks message_iter stats with
      ⟨_, _, e⟩ | ⟨_, e⟩ | ⟨_, _, _, _, e⟩
    · rw [e]
    · rw [e] at h; cases h
    · rw [e] at h; cases h
  · intro v h
    rcases get_snapshot_ask_order_stats D L toks message_iter stats with
      ⟨_, _, e⟩ | ⟨_, e⟩ | ⟨_, _, _, _, e⟩
    · rw [e]
    · rw [e] at h; cases h
    · rw [e] at h; cases h
  · intro r v hr h
    rcases r with ⟨o, it, st⟩
    simp only at h
    subst h
    exact (get_orders_loop_returned D L toks _ _ _ _ _ _ _ hr).1
  · intro v h
    rcases get_snapshot_trade_stats D toks message_iter stats with ⟨_, _, e⟩ | ⟨_, _, _, e⟩
    · rw [e]
    · rw [e] at h; cases h
  · intro v h
    rcases get_trades_stats D toks message_iter stats with ⟨_, _, e⟩ | ⟨_, _, _, e⟩
    · rw [e]
    · rw [e] at h; cases h

theorem counters_unchanged_on_return_witness :
    (get_order csv sample_limits ["A", "1000001", "B", "5", "900"] 0
        ⟨1, 2, 3, 4, 5, 6, 7, 8⟩).stats = ⟨1, 2, 3, 4, 5, 6, 7, 8⟩ ∧
    (get_trades csv ["S", "x", "y", "z"] 0 ⟨1, 2, 3, 4, 5, 6, 7, 8⟩).stats
      = ⟨1, 2, 3, 4, 5, 6, 7, 8⟩ :=
  ⟨(counters_unchanged_on_return csv sample_limits ["A", "1000001", "B", "5", "900"] 0
      ⟨1, 2, 3, 4, 5, 6, 7, 8⟩).2.1 ⟨1000001, Side.Bid, 5, 900⟩ (by decide),
   (counters_unchanged_on_return csv sample_limits ["S", "x", "y", "z"] 0
      ⟨1, 2, 3, 4, 5, 6, 7, 8⟩).2.2.2.2.2.2.2 [] (by decide)⟩

/-! ## Range of the returned values -/

/-- C16: no out-of-range value is returned.  An Order returned by `get_order`,
`get_snapshot_bid_order` or `get_snapshot_ask_order` has its quantity in
`(0, max_order_quantity]` and its price in `(0, max_order_price]`, and they are the values
the quantity token and the price token of the record convert to; an Order returned by
`get_order` also has its id in `(0, max_order_id]`, the value of the id token. -/
theorem returned_orders_in_range {Tok : Type} (D : TokenTypes Tok) (L : Limits)
    (toks : List Tok) (message_iter : Nat) (stats : Stats) :
    (∀ o, (get_order D L toks message_iter stats).outcome = .returned o →
      (0 < o.quantity ∧ o.quantity ≤ L.max_order_quantity) ∧
      (0 < o.price ∧ o.price ≤ L.max_order_price) ∧
      (0 < o.id ∧ o.id ≤ L.max_order_id) ∧
      parse_type D.order_id toks (message_iter + 1) = some o.id ∧
      parse_type D.quantity toks (message_iter + 3) = some o.quantity ∧
      parse_type D.price toks (message_iter + 4) = some o.price) ∧
    (∀ o, (get_snapshot_bid_order D L toks message_iter stats).outcome = .returned o →
      (0 < o.quantity ∧ o.quantity ≤ L.max_order_quantity) ∧
      (0 < o.price ∧ o.price ≤ L.max_order_price) ∧
      parse_type D.quantity toks (message_iter + 2) = some o.quantity ∧
      parse_type D.price toks (message_iter + 3) = some o.price) ∧
    (∀ o, (get_snapshot_ask_order D L toks message_iter stats).outcome = .returned o →
      (0 < o.quantity ∧ o.quantity ≤ L.max_order_quantity) ∧
      (0 < o.price ∧ o.price ≤ L.max_order_price) ∧
      parse_type D.price toks (message_iter + 1) = some o.price ∧
      parse_type D.quantity toks (message_iter + 2) = some o.quantity) := by
  refine ⟨?_, ?_, ?_⟩
  · intro o h
    rcases e : get_order D L toks message_iter stats with ⟨out, it, st⟩
    rw [e] at h
    simp only at h
    subst h
    obtain ⟨-, -, hid, hidr, -, hq, hqr, hp, hpr⟩ :=
      get_order_returned D L toks message_iter stats o it st e
    exact ⟨hqr, hpr, hidr, hid, hq, hp⟩
  · intro o h
    rcases e : get_snapshot_bid_order D L toks message_iter stats with ⟨out, it, st⟩
    rw [e] at h
    simp only at h
    subst h
    obtain ⟨-, -, -, hq, hqr, hp, hpr, -, -⟩ :=
      get_snapshot_bid_order_returned D L toks message_iter stats o it st e
    exact ⟨hqr, hpr, hq, hp⟩
  · intro o h
    rcases e : get_snapshot_ask_order D L toks message_iter stats with ⟨out, it, st⟩
    rw [e] at h
    simp only at h
    subst h
    obtain ⟨-, -, hp, hpr, hq, hqr, -, -, -⟩ :=
      get_snapshot_ask_order_returned D L toks message_iter stats o it st e
    exact ⟨hqr, hpr, hp, hq⟩

theorem returned_orders_in_range_witness :
    ((0 : Int) < 5 ∧ (5 : Int) ≤ sample_limits.max_order_quantity) ∧
    ((0 : Int) < 900 ∧ (900 : Int) ≤ sample_limits.max_order_price) ∧
    ((0 : Int) < 1000001 ∧ (1000001 : Int) ≤ sample_limits.max_order_id) ∧
    parse_type csv.order_id ["A", "1000001", "B", "5", "900"] (0 + 1) = some 1000001 ∧
    parse_type csv.quantity ["A", "1000001", "B", "5", "900"] (0 + 3) = some 5 ∧
    parse_type csv.price ["A", "1000001", "B", "5", "900"] (0 + 4) = some 900 :=
  (returned_orders_in_range csv sample_limits ["A", "1000001", "B", "5", "900"] 0
    Stats.zero).1 ⟨1000001, Side.Bid, 5, 900⟩ (by decide)

/-! ## Shape of the returned ladder -/

theorem ladder_read_even {Tok : Type} (D : TokenTypes Tok) (toks : List Tok) :
    ∀ (n message_iter : Nat) (orders : List Order), orders.length ≤ n →
      ladder_read D toks message_iter orders → orders.length % 2 = 0 := by
  intro n
  induction n with
  | zero =>
    intro message_iter orders hn _
    have : orders = [] := List.length_eq_zero.mp (Nat.le_zero.mp hn)
    simp [this]
  | succ n ih =>
    intro message_iter orders hn h
    match orders, hn, h with
    | [], _, _ => rfl
    | [_], _, h => exact absurd h (by simp [ladder_read])
    | bid :: ask :: rest, hn, h =>
      have hrest := ih (message_iter + 6) rest (by simp at hn; omega) h.2.2
      simp only [List.length_cons]
      omega

theorem ladder_read_pair {Tok : Type} (D : TokenTypes Tok) (toks : List Tok) :
    ∀ (k message_iter : Nat) (orders : List Order),
      ladder_read D toks message_iter orders →
      (∀ bid, orders[2 * k]? = some bid →
        bid.side = Side.Bid ∧
        (bid.price ≤ 2 ^ 53 - 1000000 → bid.id = bid.price + 1000000) ∧
        parse_type D.quantity toks (message_iter + 6 * k + 2) = some bid.quantity ∧
        parse_type D.price toks (message_iter + 6 * k + 3) = some bid.price) ∧
      (∀ ask, orders[2 * k + 1]? = some ask →
        ask.side = Side.Ask ∧
        (ask.price ≤ 2 ^ 53 - 2000000 → ask.id = ask.price + 2000000) ∧
        parse_type D.price toks (message_iter + 6 * k + 4) = some ask.price ∧
        parse_type D.quantity toks (message_iter + 6 * k + 5) = some ask.quantity) := by
  intro k
  induction k with
  | zero =>
    intro message_iter orders h
    match orders, h with
    | [], _ => simp
    | [_], h => exact absurd h (by simp [ladder_read])
    | bid :: ask :: rest, h =>
      constructor
      · intro b hb
        simp only [Nat.mul_zero, List.getElem?_cons_zero, Option.some.injEq] at hb
        subst hb
        obtain ⟨hs, ⟨hp, hi⟩, hq, hpr⟩ := h.1
        refine ⟨hs, ?_, hq, hpr⟩
        intro hle
        rw [hi, synthetic_order_id_exact 1000000 bid.price (by decide) (by omega) (by omega)]
        omega
      · intro a ha
        simp only [Nat.mul_zero, Nat.zero_add, List.getElem?_cons_succ,
          List.getElem?_cons_zero, Option.some.injEq] at ha
        subst ha
        obtain ⟨hs, ⟨hp, hi⟩, hpr, hq⟩ := h.2.1
        refine ⟨hs, ?_, hpr, hq⟩
        intro hle
        rw [hi, synthetic_order_id_exact 2000000 ask.price (by decide) (by omega) (by omega)]
        omega
  | succ k ih =>
    intro message_iter orders h
    match orders, h with
    | [], _ => simp
    | [_], h => exact absurd h (by simp [ladder_read])
    | bid :: ask :: rest, h =>
      have hrest := ih (message_iter + 6) rest h.2.2
      have e1 : 2 * (k + 1) = (2 * k + 1) + 1 := by omega
      have e2 : 2 * (k + 1) + 1 = (2 * k + 1 + 1) + 1 := by omega
      have i2 : message_iter + 6 * (k + 1) + 2 = message_iter + 6 + 6 * k + 2 := by omega
      have i3 : message_iter + 6 * (k + 1) + 3 = message_iter + 6 + 6 * k + 3 := by omega
      have i4 : message_iter + 6 * (k + 1) + 4 = message_iter + 6 + 6 * k + 4 := by omega
      have i5 : message_iter + 6 * (k + 1) + 5 = message_iter + 6 + 6 * k + 5 := by omega
      constructor
      · intro b hb
        rw [e1, List.getElem?_cons_succ, List.getElem?_cons_succ] at hb
        rw [i2, i3]
        exact hrest.1 b hb
      · intro a ha
        rw [e2, List.getElem?_cons_succ, List.getElem?_cons_succ] at ha
        rw [i4, i5]
        exact hrest.2 a ha

/-- C17 (counterexample): with a price limit of `2^63 - 1`, on the one-level snapshot
`S,1,5,9007199253740993,9007199252740993,5,1` (bid price `2^53 - 1000000 + 1`, ask price
`2^53 - 2000000 + 1`) `get_orders` returns a bid entry and an ask entry whose ids are both
`9007199254740992 = 2^53`, not `price + 1000000` and `price + 2000000`. -/
theorem ladder_id_rounded :
    get_orders csv ⟨4000000000, 1000000, 9223372036854775807⟩
        ["S", "1", "5", "9007199253740993", "9007199252740993", "5", "1"] 0 Stats.zero
      = some ⟨.returned [⟨9007199254740992, Side.Bid, 5, 9007199253740993⟩,
          ⟨9007199254740992, Side.Ask, 5, 9007199252740993⟩], 6, Stats.zero⟩ ∧
    (Order.mk 9007199254740992 Side.Bid 5 9007199253740993).id
      ≠ (Order.mk 9007199254740992 Side.Bid 5 9007199253740993).price + 1000000 ∧
    (Order.mk 9007199254740992 Side.Ask 5 9007199252740993).id
      ≠ (Order.mk 9007199254740992 Side.Ask 5 9007199252740993).price + 2000000 := by
  decide

/-- C17 (amended): whenever `get_orders` returns, the ladder has even length; its entry
`2k` has side Bid and, when its price is at most `2^53 - 1000000`, id `price + 1000000`;
its entry `2k+1` has side Ask and, when its price is at most `2^53 - 2000000`, id
`price + 2000000`; and the pairs are in transmitted order: pair `k` carries the quantity
and price values of the tokens at cursor `+ 6k + 2`, `+ 6k + 3` (bid) and `+ 6k + 4`,
`+ 6k + 5` (ask). -/
theorem get_orders_ladder_shape {Tok : Type} (D : TokenTypes Tok) (L : Limits)
    (toks : List Tok) (message_iter : Nat) (stats : Stats) (ladder : List Order) (it : Nat)
    (st : Stats)
    (h : get_orders D L toks message_iter stats = some ⟨.returned ladder, it, st⟩) :
    ladder.length % 2 = 0 ∧
    ∀ k,
      (∀ bid, ladder[2 * k]? = some bid →
        bid.side = Side.Bid ∧
        (bid.price ≤ 2 ^ 53 - 1000000 → bid.id = bid.price + 1000000) ∧
        parse_type D.quantity toks (message_iter + 6 * k + 2) = some bid.quantity ∧
        parse_type D.price toks (message_iter + 6 * k + 3) = some bid.price) ∧
      (∀ ask, ladder[2 * k + 1]? = some ask →
        ask.side = Side.Ask ∧
        (ask.price ≤ 2 ^ 53 - 2000000 → ask.id = ask.price + 2000000) ∧
        parse_type D.price toks (message_iter + 6 * k + 4) = some ask.price ∧
        parse_type D.quantity toks (message_iter + 6 * k + 5) = some ask.quantity) := by
  obtain ⟨-, -, new, hout, hnew⟩ := get_orders_loop_returned D L toks _ _ _ _ _ _ _ h
  simp only [List.nil_append] at hout
  subst hout
  exact ⟨ladder_read_even D toks _ _ _ (Nat.le_refl _) hnew,
    fun k => ladder_read_pair D toks k _ _ hnew⟩

theorem get_orders_ladder_shape_witness :
    (Order.mk 1000099 Side.Bid 7 99).side = Side.Bid ∧
    ((Order.mk 1000099 Side.Bid 7 99).price ≤ 2 ^ 53 - 1000000 →
      (Order.mk 1000099 Side.Bid 7 99).id = (Order.mk 1000099 Side.Bid 7 99).price + 1000000) ∧
    parse_type csv.quantity
      ["S", "2", "10", "100", "101", "5", "1", "1", "7", "99", "102", "8", "3"]
      (0 + 6 * 1 + 2) = some (Order.mk 1000099 Side.Bid 7 99).quantity ∧
    parse_type csv.price
      ["S", "2", "10", "100", "101", "5", "1", "1", "7", "99", "102", "8", "3"]
      (0 + 6 * 1 + 3) = some (Order.mk 1000099 Side.Bid 7 99).price :=
  ((get_orders_ladder_shape csv sample_limits
    ["S", "2", "10", "100", "101", "5", "1", "1", "7", "99", "102", "8", "3"] 0 Stats.zero
    [⟨1000100, Side.Bid, 10, 100⟩, ⟨2000101, Side.Ask, 5, 101⟩,
      ⟨1000099, Side.Bid, 7, 99⟩, ⟨2000102, Side.Ask, 8, 102⟩] 12 Stats.zero
    (by decide)).2 1).1 ⟨1000099, Side.Bid, 7, 99⟩ (by decide)

/-! ## Synthetic ids -/

/-- C12 (counterexample): two numeric fields decoded from `5,900` with the cursor on `5`:
both decode, and the cursor ends on `900`, one token further, not two. -/
theorem parse_type_fields_all_decoded :
    parse_type_fields ["5", "900"] csv_number [csv_number] 0 = ⟨true, 1, [5, 900]⟩ ∧
    (parse_type_fields ["5", "900"] csv_number [csv_number] 0).message_iter
      ≠ 0 + (parse_type_fields ["5", "900"] csv_number [csv_number] 0).values.length ∧
    parse_type_fields ["5"] csv_number [] 0 = ⟨true, 0, [5]⟩ := by
  decide

/-- C12 (amended): the variadic `parse_type` over `k >= 1` fields decodes them left to
right, field `i` from the token `i` places after the cursor; it returns success exactly
when every field decodes; nothing is decoded after the first field that fails; and the
cursor moves one token between two fields, never after the last: it ends on the failing
field's token (initial position plus the number of fields decoded) when a field fails, and
on the last field's token (initial position plus `k - 1`) when all `k` decode. -/
theorem parse_type_fields_contract {Tok V : Type} (toks : List Tok) :
    ∀ (rest : List (Tok → Option V)) (t : Tok → Option V) (message_iter : Nat),
    (parse_type_fields toks t rest message_iter).values.length ≤ rest.length + 1 ∧
    (∀ i f, (t :: rest)[i]? = some f →
      i < (parse_type_fields toks t rest message_iter).values.length →
      ∃ v, (parse_type_fields toks t rest message_iter).values[i]? = some v ∧
        parse_type f toks (message_iter + i) = some v) ∧
    ((parse_type_fields toks t rest message_iter).ok = true ↔
      (parse_type_fields toks t rest message_iter).values.length = rest.length + 1) ∧
    ((parse_type_fields toks t rest message_iter).values.length < rest.length + 1 →
      (∃ f, (t :: rest)[(parse_type_fields toks t rest message_iter).values.length]? = some f ∧
        parse_type f toks
          (message_iter + (parse_type_fields toks t rest message_iter).values.length)
          = none) ∧
      (parse_type_fields toks t rest message_iter).message_iter
        = message_iter + (parse_type_fields toks t rest message_iter).values.length) ∧
    ((parse_type_fields toks t rest message_iter).values.length = rest.length + 1 →
      (parse_type_fields toks t rest message_iter).message_iter
        = message_iter + rest.length) := by
  intro rest
  induction rest with
  | nil =>
    intro t message_iter
    cases h : parse_type t toks message_iter with
    | none =>
      simp only [parse_type_fields, h]
      refine ⟨by simp, ?_, by simp, ?_, by simp⟩
      · intro i f _ hi
        simp at hi
      · intro _
        exact ⟨⟨t, by simp, by simpa using h⟩, by simp⟩
    | some v =>
      simp only [parse_type_fields, h]
      refine ⟨by simp, ?_, by simp, by simp, by simp⟩
      intro i f hf hi
      have hi0 : i = 0 := by simp at hi; omega
      subst hi0
      simp only [List.getElem?_cons_zero, Option.some.injEq] at hf
      subst hf
      exact ⟨v, by simp, by simpa using h⟩
  | cons r rest ih =>
    intro t message_iter
    cases h : parse_type t toks message_iter with
    | none =>
      simp only [parse_type_fields, h]
      refine ⟨by simp, ?_, by simp, ?_, by simp⟩
      · intro i f _ hi
        simp at hi
      · intro _
        exact ⟨⟨t, by simp, by simpa using h⟩, by simp⟩
    | some v =>
      obtain ⟨h1, h2, h3, h4, h5⟩ := ih r (message_iter + 1)
      simp only [parse_type_fields, h, List.length_cons]
      refine ⟨by omega, ?_, ?_, ?_, ?_⟩
      · intro i f hf hi
        cases i with
        | zero =>
          simp only [List.getElem?_cons_zero, Option.some.injEq] at hf
          subst hf
          exact ⟨v, by simp, by simpa using h⟩
        | succ j =>
          rw [List.getElem?_cons_succ] at hf
          obtain ⟨w, hw, hp⟩ := h2 j f hf (by omega)
          refine ⟨w, by simpa using hw, ?_⟩
          have e : message_iter + (j + 1) = message_iter + 1 + j := by omega
          rw [e]
          exact hp
      · rw [h3]
        omega
      · intro hlt
        obtain ⟨⟨f, hf, hp⟩, hit⟩ := h4 (by omega)
        refine ⟨⟨f, ?_, ?_⟩, ?_⟩
        · rw [List.getElem?_cons_succ]
          exact hf
        · have e : message_iter +
              ((parse_type_fields toks r rest (message_iter + 1)).values.length + 1)
              = message_iter + 1
                + (parse_type_fields toks r rest (message_iter + 1)).values.length := by
            omega
          rw [e]
          exact hp
        · rw [hit]
          omega
      · intro heq
        rw [h5 (by omega)]
        omega

theorem parse_type_fields_contract_witness :
    (parse_type_fields ["5", "900", "7"] csv_number [csv_number, csv_number] 0).message_iter
      = 0 + ([csv_number, csv_number] : List (String → Option Int)).length ∧
    (parse_type_fields ["5", "x", "7"] csv_number [csv_number, csv_number] 0).message_iter
      = 0 + (parse_type_fields ["5", "x", "7"] csv_number [csv_number, csv_number]
          0).values.length :=
  ⟨(parse_type_fields_contract ["5", "900", "7"] [csv_number, csv_number] csv_number 0).2.2.2.2
      (by decide),
   ((parse_type_fields_contract ["5", "x", "7"] [csv_number, csv_number] csv_number
      0).2.2.2.1 (by decide)).2⟩

/-! ## A whole snapshot message -/

/-- Over valid levels followed by any further tokens, the loop makes one pass per level
and goes on from the token after them. -/
theorem get_orders_loop_levels {Tok : Type} (D : TokenTypes Tok) (L : Limits)
    (levels : List (Level Tok)) :
    ∀ (pre : List Tok) (cur : Tok) (rest : List Tok) (fuel : Nat) (stats : Stats)
      (orders : List Order), (∀ l ∈ levels, l.valid D L) →
      get_orders_loop D L (pre ++ cur :: (ladder_tokens levels ++ rest))
          (fuel + levels.length) pre.length stats orders
        = get_orders_loop D L (pre ++ cur :: (ladder_tokens levels ++ rest)) fuel
            (pre.length + 6 * levels.length) stats (orders ++ ladder_orders levels) := by
  induction levels with
  | nil =>
    intro pre cur rest fuel stats orders _
    simp [ladder_tokens, ladder_orders]
  | cons l ls ih =>
    intro pre cur rest fuel stats orders hvalid
    have hl : l.valid D L := hvalid l (List.mem_cons_self _ _)
    have hls : ∀ x ∈ ls, x.valid D L := fun x hx => hvalid x (List.mem_cons_of_mem _ hx)
    have hstep := get_orders_loop_level D L pre cur l (ladder_tokens ls ++ rest)
      (fuel + ls.length) stats orders hl
    have hih := ih (pre ++ [cur, l.bid_contrib_tok, l.bid_qty_tok, l.bid_price_tok,
      l.ask_price_tok, l.ask_qty_tok]) l.ask_contrib_tok rest fuel stats
      (orders ++ l.orders) hls
    have htoks : pre ++ cur :: (ladder_tokens (l :: ls) ++ rest)
        = pre ++ cur :: (l.tokens ++ (ladder_tokens ls ++ rest)) := by
      simp [ladder_tokens]
    have htoks2 : pre ++ cur :: (l.tokens ++ (ladder_tokens ls ++ rest))
        = (pre ++ [cur, l.bid_contrib_tok, l.bid_qty_tok, l.bid_price_tok,
            l.ask_price_tok, l.ask_qty_tok]) ++ l.ask_contrib_tok
              :: (ladder_tokens ls ++ rest) := by
      simp [Level.tokens]
    have hlen : (pre ++ [cur, l.bid_contrib_tok, l.bid_qty_tok, l.bid_price_tok,
        l.ask_price_tok, l.ask_qty_tok]).length = pre.length + 6 := by simp
    have hfuel : fuel + (l :: ls).length = fuel + ls.length + 1 := by simp; omega
    have hpos : pre.length + 6 * (l :: ls).length = pre.length + 6 + 6 * ls.length := by
      simp; omega
    rw [hlen] at hih
    rw [htoks, hfuel, hstep, htoks2, hih, hpos]
    simp [ladder_orders, List.append_assoc]

/-- C11 (counterexample): the snapshot `S,2,10,100,101,5,1,B,3,50` (one level, then the
trade `B,3,50`): `get_event` returns Snapshot, and `get_orders`, after the level, goes on
into the trade tokens, reads `B` as a contributor count and throws. -/
theorem snapshot_trailing_trade_throws :
    get_event csv ["S", "2", "10", "100", "101", "5", "1", "B", "3", "50"] 0 Stats.zero
      = ⟨.returned Event.Snapshot, 0, Stats.zero⟩ ∧
    get_orders csv sample_limits ["S", "2", "10", "100", "101", "5", "1", "B", "3", "50"] 0
        Stats.zero
      = some ⟨.thrown "Order number of contributors syntax", 7, Stats.zero⟩ ∧
    get_trade csv ["T", "B", "3", "50"] 0 Stats.zero
      = ⟨.returned ⟨Side.Bid, 3, 50⟩, 3, Stats.zero⟩ := by
  decide

/-- C11 (amended): for a snapshot message made of the event code S and N valid bid/ask
levels and nothing else, `get_event`, then `get_orders`, then `get_trades` on the same
cursor throw nothing and give Snapshot, the 2N-entry ladder of those levels in bid, ask
order, and the empty trade list.  When three more tokens trail the levels (a trade
triple), `get_event` gives Snapshot and `get_orders` throws instead of returning the
ladder. -/
theorem snapshot_end_to_end {Tok : Type} (D : TokenTypes Tok) (L : Limits)
    (pre : List Tok) (cur : Tok) (levels : List (Level Tok)) (stats : Stats)
    (hevent : D.event cur = some Event.Snapshot)
    (hvalid : ∀ l ∈ levels, l.valid D L) :
    (get_event D (pre ++ cur :: ladder_tokens levels) pre.length stats
        = ⟨.returned Event.Snapshot, pre.length, stats⟩ ∧
      (∃ ladder, get_orders D L (pre ++ cur :: ladder_tokens levels) pre.length stats
          = some ⟨.returned ladder, pre.length + 6 * levels.length, stats⟩ ∧
        ladder_of_levels levels ladder) ∧
      get_trades D (pre ++ cur :: ladder_tokens levels) (pre.length + 6 * levels.length) stats
        = ⟨.returned [], pre.length + 6 * levels.length + 3, stats⟩) ∧
    (∀ tside tqty tprice : Tok,
      get_event D (pre ++ cur :: (ladder_tokens levels ++ [tside, tqty, tprice])) pre.length
          stats = ⟨.returned Event.Snapshot, pre.length, stats⟩ ∧
      ∃ what it st,
        get_orders D L (pre ++ cur :: (ladder_tokens levels ++ [tside, tqty, tprice]))
          pre.length stats = some ⟨.thrown what, it, st⟩) := by
  have hev : ∀ rest : List Tok, get_event D (pre ++ cur :: rest) pre.length stats
      = ⟨.returned Event.Snapshot, pre.length, stats⟩ := by
    intro rest
    have hp : parse_type D.event (pre ++ cur :: rest) pre.length = some Event.Snapshot := by
      have := parse_type_append D.event pre (cur :: rest) 0 cur (by simp)
      rw [Nat.add_zero] at this
      rw [this, hevent]
    simp [get_event, hp, contains, Event.code]
  have hord : get_orders D L (pre ++ cur :: ladder_tokens levels) pre.length stats
      = some ⟨.returned (ladder_orders levels), pre.length + 6 * levels.length, stats⟩ := by
    have h := get_orders_loop_ladder D L levels pre cur
      ((pre ++ cur :: ladder_tokens levels).length + 1) stats [] hvalid
      (by simp [ladder_tokens_length]; omega)
    simpa [get_orders] using h
  refine ⟨⟨hev _, ⟨ladder_orders levels, hord,
    ladder_orders_of_levels levels (Level.valid_prices D L levels hvalid)⟩, ?_⟩, ?_⟩
  · have hnone : parse_type D.side (pre ++ cur :: ladder_tokens levels)
        (pre.length + 6 * levels.length + 1) = none :=
      parse_type_past_end _ _ _ (by simp [ladder_tokens_length]; omega)
    simp [get_trades, get_snapshot_trade, hnone]
  · intro tside tqty tprice
    refine ⟨hev _, ?_⟩
    have hlen : (pre ++ cur :: (ladder_tokens levels ++ [tside, tqty, tprice])).length
        = pre.length + 6 * levels.length + 4 := by
      simp [ladder_tokens_length]; omega
    have hsplit := get_orders_loop_levels D L levels pre cur [tside, tqty, tprice]
      (pre.length + 5 * levels.length + 4 + 1) stats [] hvalid
    have hfuel : (pre ++ cur :: (ladder_tokens levels ++ [tside, tqty, tprice])).length + 1
        = pre.length + 5 * levels.length + 4 + 1 + levels.length := by
      rw [hlen]; omega
    obtain ⟨what, it, st, hthrow⟩ := get_orders_loop_partial_level D L
      (pre ++ cur :: (ladder_tokens levels ++ [tside, tqty, tprice]))
      (pre.length + 5 * levels.length + 4) (pre.length + 6 * levels.length) stats
      ([] ++ ladder_orders levels) (by rw [hlen]; omega) (by rw [hlen]; omega)
    refine ⟨what, it, st, ?_⟩
    unfold get_orders
    rw [hfuel, hsplit, hthrow]

theorem snapshot_end_to_end_witness :
    get_trades csv (([] : List String) ++ "S" :: ladder_tokens
        [⟨"2", "10", "100", "101", "5", "1", 10, 100, 101, 5⟩])
        (([] : List String).length + 6 * [(⟨"2", "10", "100", "101", "5", "1", 10, 100, 101,
          5⟩ : Level String)].length) Stats.zero
      = ⟨.returned [], ([] : List String).length + 6 * [(⟨"2", "10", "100", "101", "5", "1", 10,
          100, 101, 5⟩ : Level String)].length + 3, Stats.zero⟩ ∧
    ∃ what it st,
      get_orders csv sample_limits (([] : List String) ++ "S" :: (ladder_tokens
        [⟨"2", "10", "100", "101", "5", "1", 10, 100, 101, 5⟩] ++ ["B", "3", "50"]))
        ([] : List String).length Stats.zero = some ⟨.thrown what, it, st⟩ :=
  ⟨(snapshot_end_to_end csv sample_limits [] "S"
      [⟨"2", "10", "100", "101", "5", "1", 10, 100, 101, 5⟩] Stats.zero (by decide)
      (by decide)).1.2.2,
   ((snapshot_end_to_end csv sample_limits [] "S"
      [⟨"2", "10", "100", "101", "5", "1", 10, 100, 101, 5⟩] Stats.zero (by decide)
      (by decide)).2 "B" "3" "50").2⟩

/-- The order in which the three builders do compose: on a snapshot made of the event
code S, a trade triple, then N valid levels, `get_event`, then `get_trades`, then
`get_orders` throw nothing and give Snapshot, the one trade, and the 2N-entry ladder. -/
theorem snapshot_trade_before_levels {Tok : Type} (D : TokenTypes Tok) (L : Limits)
    (cur tside tqty tprice : Tok) (levels : List (Level Tok)) (stats : Stats)
    (side : Side) (qty price : Int)
    (hevent : D.event cur = some Event.Snapshot)
    (hside : D.side tside = some side) (hvalid_side : side = Side.Bid ∨ side = Side.Ask)
    (hqty : D.quantity tqty = some qty) (hqty_pos : 0 < qty)
    (hprice : D.price tprice = some price) (hprice_pos : 0 < price)
    (hvalid : ∀ l ∈ levels, l.valid D L) :
    get_event D (cur :: tside :: tqty :: tprice :: ladder_tokens levels) 0 stats
      = ⟨.returned Event.Snapshot, 0, stats⟩ ∧
    get_trades D (cur :: tside :: tqty :: tprice :: ladder_tokens levels) 0 stats
      = ⟨.returned [⟨side, qty, price⟩], 3, stats⟩ ∧
    ∃ ladder, get_orders D L (cur :: tside :: tqty :: tprice :: ladder_tokens levels) 3 stats
        = some ⟨.returned ladder, 3 + 6 * levels.length, stats⟩ ∧
      ladder_of_levels levels ladder := by
  have hne : side ≠ Side.Unknown := by rcases hvalid_side with h | h <;> simp [h]
  refine ⟨?_, ?_, ladder_orders levels, ?_,
    ladder_orders_of_levels levels (Level.valid_prices D L levels hvalid)⟩
  · simp [get_event, parse_type, make_type, hevent, contains, Event.code]
  · simp [get_trades, get_snapshot_trade, parse_type, make_type, hside, hqty, hprice,
      not_le.mpr hqty_pos, not_le.mpr hprice_pos, hne]
  · have h := get_orders_loop_ladder D L levels [cur, tside, tqty] tprice
      (([cur, tside, tqty] ++ tprice :: ladder_tokens levels).length + 1) stats [] hvalid
      (by simp [ladder_tokens_length]; omega)
    simpa [get_orders] using h

theorem snapshot_trade_before_levels_witness :
    get_trades csv ("S" :: "B" :: "3" :: "50" :: ladder_tokens
        [⟨"2", "10", "100", "101", "5", "1", 10, 100, 101, 5⟩]) 0 Stats.zero
      = ⟨.returned [⟨Side.Bid, 3, 50⟩], 3, Stats.zero⟩ :=
  (snapshot_trade_before_levels csv sample_limits "S" "B" "3" "50"
    [⟨"2", "10", "100", "101", "5", "1", 10, 100, 101, 5⟩] Stats.zero Side.Bid 3 50
    (by decide) (by decide) (by decide) (by decide) (by decide) (by decide) (by decide)
    (by decide)).2.1

end ListParser
